import Mathlib

/-!
Verification of the native parallel primitives of this repository.

Embedded source files:
* `aten/src/ATen/Parallel_native.h` — `at::parallel_for` and `at::parallel_reduce`:
  chunk planning (`divup`, `chunk_size`, `num_tasks`), dispatch of tasks `1..num_tasks-1`
  to the intra-op pool guarded by `local_start < end`, execution of task 0 on the calling
  thread, thread-local region bookkeeping (`_set_thread_num`, `_set_in_parallel_region`),
  first-writer-wins exception capture (`err_flag.test_and_set`), joining of all futures,
  rethrow of the captured exception, and (for reduce) the `std::accumulate` fold of the
  per-task results buffer.
* `aten/src/ATen/Parallel_threadpool_native.cpp` — the inter-op pool state machine:
  the atomic `num_interop_threads` counter (`-1` unset, `n > 0` user requested, `-2`
  pool started), `set_num_interop_threads`, `get_num_interop_threads`, `get_pool`,
  `createC10ThreadPool` (with its `AT_ASSERT`s) and `launch`.

Machine integers: C++ `int64_t` values are modelled as `Int`; the one place where the
source performs arithmetic in `size_t` (unsigned 64-bit) and casts the result back to
`int64_t` — `(int64_t)(chunk_size + local_start)` and
`int64_t local_start = begin + task_id * chunk_size` — is modelled by an explicit
reduction into `[-2^63, 2^63)` (`asInt64`).  On the compilers this code targets that
conversion yields the wrapped value (and it is defined behavior since C++20).
Exceptions are modelled with `Except`; concurrency is sequentialized, with the real-time
completion order of the chunks abstracted as an explicit `sched` list that determines
which failing chunk wins the atomic `err_flag.test_and_set` race.
-/

/-- Thread-local region state: the `in_parallel_region` flag and the thread number
forced by `_set_thread_num` (`none` when `_unset_thread_num` was last called).
Defaults (a fresh thread, or an idle pool worker) are `false` / `none`. -/
structure RegionCtx where
  inParallelRegion : Bool
  threadNum : Option Nat
deriving DecidableEq, Repr

/-- Region state of a fresh or idle thread. -/
def defaultRegionCtx : RegionCtx := { inParallelRegion := false, threadNum := none }

/-- Reduction of an unbounded integer into the `int64_t` range, i.e. the value obtained
in C++ by computing in unsigned 64-bit arithmetic and converting the result to
`int64_t`. -/
def asInt64 (x : Int) : Int := (x + 2 ^ 63) % 2 ^ 64 - 2 ^ 63

/-- Value of an `int` read through a `size_t` (unsigned 64-bit) conversion, as happens
in the comparison `pool->size() == pool_size`. -/
def asUInt64 (x : Int) : Int := x % 2 ^ 64

/-- Modelled from the spec: `divup`, the ceiling-division helper used by the planner
(`ceil((end-begin)/thread_count)`); its definition lives in `ATen/Parallel.h`, which is
not part of the provided sources.  On positive arguments `(x + y - 1) / y` is exactly
the ceiling. -/
def divup (x y : Int) : Int := (x + y - 1) / y

/-- The value `size_t chunk_size = std::max((size_t)grain_size, divup(end - begin,
get_num_threads()))` computed by both primitives.  `nt` stands for the value returned
by `get_num_threads()` (not part of the provided sources; the spec treats it as the
thread count of the intra-op pool). -/
def chunkSizeOf (b e g : Int) (nt : Nat) : Nat :=
  max g.toNat (divup (e - b) (nt : Int)).toNat

/-- The value `size_t num_tasks = divup(end - begin, chunk_size)`. -/
def numTasksOf (b e g : Int) (nt : Nat) : Nat :=
  (divup (e - b) ((chunkSizeOf b e g nt : Nat) : Int)).toNat

/-- The value `int64_t local_start = begin + task_id * chunk_size` (the sum is computed
in `size_t` arithmetic and converted back to `int64_t`). -/
def localStartOf (b : Int) (cs k : Nat) : Int := asInt64 (b + (k : Int) * (cs : Int))

/-- The value `std::min(end, (int64_t)(chunk_size + local_start))` (again `size_t`
arithmetic converted back to `int64_t`). -/
def localEndOf (e : Int) (cs : Nat) (ls : Int) : Int := min e (asInt64 ((cs : Int) + ls))

/-- Start index of the range passed to task `k`: the dispatch loop uses `local_start`,
while task 0 (run on the calling thread) is passed `begin` itself. -/
def chunkStartC (b e g : Int) (nt : Nat) (k : Nat) : Int :=
  if k = 0 then b else localStartOf b (chunkSizeOf b e g nt) k

/-- End index of the range passed to task `k`: `std::min(end, (int64_t)(chunk_size +
local_start))`; for task 0 this is `first_task_end = std::min(end, (int64_t)(chunk_size
+ begin))`. -/
def chunkStopC (b e g : Int) (nt : Nat) (k : Nat) : Int :=
  localEndOf e (chunkSizeOf b e g nt) (chunkStartC b e g nt k)

/-- Modelled from the spec: the chunk interval the specification claims for chunk `k`,
namely `[begin + k*chunk_size, min(end, begin + (k+1)*chunk_size))` (used only to be
compared with what the source computes). -/
def claimedChunkStart (b : Int) (cs k : Nat) : Int := b + (k : Int) * (cs : Int)

/-- Modelled from the spec: the claimed end of chunk `k`. -/
def claimedChunkStop (b e : Int) (cs k : Nat) : Int :=
  min e (b + ((k : Int) + 1) * (cs : Int))

/-- Record of one invocation of the user body.  `taskId = some k` means the invocation
ran inside the engine's `task` wrapper for task id `k`; `taskId = none` means the
direct call on the sequential path.  `ctxSeen` is the region state of the executing
thread while the body runs; `ctxAfter` its region state immediately afterwards. -/
structure BodyRun where
  taskId : Option Nat
  start : Int
  stop : Int
  ctxSeen : RegionCtx
  ctxAfter : RegionCtx
deriving DecidableEq, Repr

/-- Result of a `parallel_for` call: normal return, the `std::runtime_error` thrown on
a negative grain size, or the rethrown first captured body exception. -/
inductive ForOutcome (ε : Type) where
  | ok : ForOutcome ε
  | invalidArg : ForOutcome ε
  | bodyErr : ε → ForOutcome ε
deriving DecidableEq, Repr

/-- Full observable behavior of one `parallel_for` call: its outcome, the body
invocations performed, which task ids were dispatched to the intra-op pool, which took
the no-dispatch `markCompleted` fallback, which futures were waited on, and the calling
thread region state after the call. -/
structure ForResult (ε : Type) where
  outcome : ForOutcome ε
  runs : List BodyRun
  dispatched : List Nat
  fallback : List Nat
  waited : List Nat
  finalCtx : RegionCtx
deriving DecidableEq, Repr

/-- The exception kept by the `err_flag.test_and_set()` race: scanning the chunks in
completion order `sched`, the first executed chunk whose body raised wins the claim and
stores its exception; all later failures find the flag set and are discarded. -/
def firstErr {ε α : Type} (sched : List Nat) (isExec : Nat → Bool)
    (res : Nat → Except ε α) : Option ε :=
  sched.findSome? (fun k =>
    if isExec k then
      match res k with
      | Except.error ex => some ex
      | Except.ok _ => none
    else none)

/-- Shallow embedding of `at::parallel_for` from `aten/src/ATen/Parallel_native.h`.
`nt` is the value of `get_num_threads()`, `sched` the completion order of the chunks
(abstracting the concurrent execution; it only influences which failing chunk wins the
exception race), `ctx` the calling thread region state, and `f` the user body, which
either returns or raises. -/
def parallelFor {ε : Type} (nt : Nat) (sched : List Nat) (ctx : RegionCtx)
    (b e g : Int) (f : Int → Int → Except ε PUnit) : ForResult ε :=
  if e ≤ b then
    -- if (begin >= end) return;
    { outcome := ForOutcome.ok, runs := [], dispatched := [], fallback := [],
      waited := [], finalCtx := ctx }
  else if g < 0 then
    -- throw std::runtime_error("Invalid begin, end or grain_size in parallel_for");
    { outcome := ForOutcome.invalidArg, runs := [], dispatched := [], fallback := [],
      waited := [], finalCtx := ctx }
  else if g ≤ e - b ∧ ctx.inParallelRegion = false then
    -- parallel path
    let n := numTasksOf b e g nt
    let sOf : Nat → Int := chunkStartC b e g nt
    let tOf : Nat → Int := chunkStopC b e g nt
    -- task 0 always runs on the calling thread; task k >= 1 runs iff local_start < end
    let isExec : Nat → Bool := fun k => k == 0 || decide (sOf k < e)
    let executed := (List.range n).filter isExec
    -- the `task` lambda: _set_thread_num(task_id); _set_in_parallel_region(true);
    -- body; _set_in_parallel_region(false); _unset_thread_num();
    let res : Nat → Except ε PUnit := fun k => f (sOf k) (tOf k)
    let err := firstErr sched isExec res
    { outcome := match err with
        | some ex => ForOutcome.bodyErr ex
        | none => ForOutcome.ok,
      runs := executed.map (fun k =>
        { taskId := some k, start := sOf k, stop := tOf k,
          ctxSeen := { inParallelRegion := true, threadNum := some k },
          ctxAfter := defaultRegionCtx }),
      dispatched := ((List.range n).drop 1).filter (fun k => decide (sOf k < e)),
      fallback := ((List.range n).drop 1).filter (fun k => ! decide (sOf k < e)),
      waited := (List.range n).drop 1,
      finalCtx := defaultRegionCtx }
  else
    -- sequential path: f(begin, end) directly, no region bookkeeping
    match f b e with
    | Except.ok _ =>
      { outcome := ForOutcome.ok,
        runs := [{ taskId := none, start := b, stop := e, ctxSeen := ctx, ctxAfter := ctx }],
        dispatched := [], fallback := [], waited := [], finalCtx := ctx }
    | Except.error ex =>
      { outcome := ForOutcome.bodyErr ex,
        runs := [{ taskId := none, start := b, stop := e, ctxSeen := ctx, ctxAfter := ctx }],
        dispatched := [], fallback := [], waited := [], finalCtx := ctx }

/-- Result of a `parallel_reduce` call. -/
inductive ReduceOutcome (α ε : Type) where
  | ok : α → ReduceOutcome α ε
  | invalidArg : ReduceOutcome α ε
  | bodyErr : ε → ReduceOutcome α ε
deriving DecidableEq, Repr

/-- Full observable behavior of one `parallel_reduce` call; `resultsAllocated` records
whether the per-task results vector was allocated. -/
structure ReduceResult (α ε : Type) where
  outcome : ReduceOutcome α ε
  runs : List BodyRun
  dispatched : List Nat
  fallback : List Nat
  waited : List Nat
  resultsAllocated : Bool
  finalCtx : RegionCtx
deriving DecidableEq, Repr

/-- Shallow embedding of `at::parallel_reduce` from `aten/src/ATen/Parallel_native.h`.
`z` is the value-initialized element of `std::vector<scalar_t> results(num_tasks)`
(slots of tasks whose body raised are never written and keep this value). -/
def parallelReduce {α ε : Type} (nt : Nat) (sched : List Nat) (ctx : RegionCtx)
    (b e g : Int) (ident : α) (z : α)
    (f : Int → Int → α → Except ε α) (sf : α → α → α) : ReduceResult α ε :=
  if e ≤ b then
    -- if (begin >= end) return ident;
    { outcome := ReduceOutcome.ok ident, runs := [], dispatched := [], fallback := [],
      waited := [], resultsAllocated := false, finalCtx := ctx }
  else if g < 0 then
    { outcome := ReduceOutcome.invalidArg, runs := [], dispatched := [], fallback := [],
      waited := [], resultsAllocated := false, finalCtx := ctx }
  else if g ≤ e - b ∧ ctx.inParallelRegion = false then
    let n := numTasksOf b e g nt
    let sOf : Nat → Int := chunkStartC b e g nt
    let tOf : Nat → Int := chunkStopC b e g nt
    let isExec : Nat → Bool := fun k => k == 0 || decide (sOf k < e)
    let executed := (List.range n).filter isExec
    -- results_data[task_id] = f(local_start, local_end, ident);
    let res : Nat → Except ε α := fun k => f (sOf k) (tOf k) ident
    let resultAt : Nat → α := fun k =>
      if isExec k then
        match res k with
        | Except.ok v => v
        | Except.error _ => z
      else z
    let err := firstErr sched isExec res
    { outcome := match err with
        | some ex => ReduceOutcome.bodyErr ex
        | none =>
          -- std::accumulate(results_data, results_data + results.size(), ident, sf)
          ReduceOutcome.ok (((List.range n).map resultAt).foldl sf ident),
      runs := executed.map (fun k =>
        { taskId := some k, start := sOf k, stop := tOf k,
          ctxSeen := { inParallelRegion := true, threadNum := some k },
          ctxAfter := defaultRegionCtx }),
      dispatched := ((List.range n).drop 1).filter (fun k => decide (sOf k < e)),
      fallback := ((List.range n).drop 1).filter (fun k => ! decide (sOf k < e)),
      waited := (List.range n).drop 1,
      resultsAllocated := true,
      finalCtx := defaultRegionCtx }
  else
    -- return f(begin, end, ident);
    match f b e ident with
    | Except.ok v =>
      { outcome := ReduceOutcome.ok v,
        runs := [{ taskId := none, start := b, stop := e, ctxSeen := ctx, ctxAfter := ctx }],
        dispatched := [], fallback := [], waited := [], resultsAllocated := false,
        finalCtx := ctx }
    | Except.error ex =>
      { outcome := ReduceOutcome.bodyErr ex,
        runs := [{ taskId := none, start := b, stop := e, ctxSeen := ctx, ctxAfter := ctx }],
        dispatched := [], fallback := [], waited := [], resultsAllocated := false,
        finalCtx := ctx }

/-- The half-open integer interval `[s, t)` as a list (empty when `t ≤ s`). -/
def rangeList (s t : Int) : List Int :=
  (List.range (t - s).toNat).map (fun i : Nat => s + (i : Int))

/-- Sequential left fold of the combiner `sf` over the per-index values `elem i` for
`i` in `[s, t)`, starting from `a` — the reference semantics the specification assigns
to a chunk function `f(s, t, a)`. -/
def seqFoldOver {α : Type} (sf : α → α → α) (elem : Int → α) (a : α) (s t : Int) : α :=
  ((rangeList s t).map elem).foldl sf a

/-- Global state of `aten/src/ATen/Parallel_threadpool_native.cpp`: the atomic counter
`num_interop_threads` (`-1` unset, `n > 0` user requested, `-2` pool started), the
function-local static pool of `createC10ThreadPool` (only its size is observable; it is
constructed before the `AT_ASSERT`s run, so it survives a failing assert), and the
function-local static handle of `get_pool`, which is only committed when its
initializer returns without throwing. -/
structure InteropWorld where
  counter : Int
  innerPool : Option Nat
  outerPool : Option Nat
deriving DecidableEq, Repr

/-- Process start state: `num_interop_threads = -1`, no pool constructed. -/
def initialInteropWorld : InteropWorld :=
  { counter := -1, innerPool := none, outerPool := none }

/-- Reduction of an unbounded integer into the `int` (32-bit) range: the value stored
by `compare_exchange_strong(no_value, nthreads)` when the `size_t` argument `nthreads`
is converted to `int`. -/
def asInt32 (x : Int) : Int := (x + 2 ^ 31) % 2 ^ 32 - 2 ^ 31

/-- Shallow embedding of `createC10ThreadPool` (spec-modelled collaborator behavior:
`PTThreadPool`, whose `size()` is the constructor argument, is not part of the provided
sources).  The pool is created with `pool_size > 0 ? pool_size :
std::thread::hardware_concurrency()`; `hw` stands for the hardware concurrency value.
The three `AT_ASSERT`s follow; note `pool->size() == pool_size` compares a `size_t`
with an `int`, so the `int` is converted to unsigned 64-bit. -/
def createC10ThreadPool (hw : Nat) (device_id pool_size : Int) (create_new : Bool)
    (w : InteropWorld) : Except String Nat × InteropWorld :=
  let size : Nat :=
    match w.innerPool with
    | some s => s
    | none => if pool_size > 0 then pool_size.toNat else hw
  let w1 := { w with innerPool := some size }
  (if device_id ≠ 0 then Except.error "AT_ASSERT failed: device_id == 0"
   else if create_new then Except.error "AT_ASSERT failed: not create_new"
   else if (size : Int) ≠ asUInt64 pool_size then
     Except.error "AT_ASSERT failed: pool size unchanged"
   else Except.ok size, w1)

/-- Shallow embedding of `get_pool`: on first evaluation the static initializer calls
`ThreadPoolRegistry()->Create("C10", 0, num_interop_threads.exchange(-2), false)`,
which dispatches to `createC10ThreadPool`; the handle is committed only if that call
returns normally (a throwing initializer is retried on the next call, but the
`exchange(-2)` has already happened). -/
def get_pool (hw : Nat) (w : InteropWorld) : Except String Nat × InteropWorld :=
  match w.outerPool with
  | some s => (Except.ok s, w)
  | none =>
    let prior := w.counter
    let w1 := { w with counter := -2 }
    match createC10ThreadPool hw 0 prior false w1 with
    | (Except.ok s, w2) => (Except.ok s, { w2 with outerPool := some s })
    | (Except.error m, w2) => (Except.error m, w2)

/-- Shallow embedding of `set_num_interop_threads`: `nthreads == 0` returns early;
otherwise `compare_exchange_strong(-1, nthreads)` either commits the value or throws
`std::runtime_error`. -/
def set_num_interop_threads (nthreads : Nat) (w : InteropWorld) :
    Except String Unit × InteropWorld :=
  if nthreads = 0 then (Except.ok (), w)
  else if w.counter = -1 then (Except.ok (), { w with counter := asInt32 (nthreads : Int) })
  else (Except.error
    "Error: cannot set number of interop threads after parallel work has started", w)

/-- Shallow embedding of `get_num_interop_threads`: a positive counter is returned
directly, `-1` returns the hardware concurrency hint, anything else reads
`get_pool().size()`. -/
def get_num_interop_threads (hw : Nat) (w : InteropWorld) :
    Except String Nat × InteropWorld :=
  let n := w.counter
  if n > 0 then (Except.ok n.toNat, w)
  else if n = -1 then (Except.ok hw, w)
  else
    match get_pool hw w with
    | (Except.ok s, w1) => (Except.ok s, w1)
    | (Except.error m, w1) => (Except.error m, w1)

/-- Shallow embedding of `launch`: `get_pool().run(func)` — materializes the pool on
first use; the queued work itself is irrelevant to the claims. -/
def launch (hw : Nat) (w : InteropWorld) : Except String Unit × InteropWorld :=
  match get_pool hw w with
  | (Except.ok _, w1) => (Except.ok (), w1)
  | (Except.error m, w1) => (Except.error m, w1)

/-! ### Arithmetic helper lemmas -/

theorem asInt64_eq_self (x : Int) (h1 : -(2 ^ 63) ≤ x) (h2 : x ≤ 2 ^ 63 - 1) :
    asInt64 x = x := by
  unfold asInt64
  rw [Int.emod_eq_of_lt (by omega) (by omega)]
  omega

theorem divup_natCast (x y : Nat) (hy : 0 < y) :
    divup (x : Int) (y : Int) = ((x + y - 1) / y : Nat) := by
  unfold divup
  have h1 : ((x : Int) + y - 1) = ((x + y - 1 : Nat) : Int) := by omega
  rw [h1, ← Int.natCast_div]

theorem ceilDiv_mul_ge (D c : Nat) (_hD : 0 < D) (hc : 0 < c) :
    D ≤ ((D + c - 1) / c) * c := by
  have h := Nat.div_add_mod (D + c - 1) c
  have h2 : (D + c - 1) % c < c := Nat.mod_lt _ hc
  have h3 : c * ((D + c - 1) / c) = ((D + c - 1) / c) * c := Nat.mul_comm _ _
  omega

theorem ceilDiv_pos (D c : Nat) (hD : 0 < D) (hc : 0 < c) :
    0 < (D + c - 1) / c :=
  Nat.div_pos (by omega) hc

theorem ceilDiv_pred_mul_lt (D c : Nat) (hD : 0 < D) (hc : 0 < c) :
    ((D + c - 1) / c - 1) * c < D := by
  have h := Nat.div_add_mod (D + c - 1) c
  have h2 : (D + c - 1) % c < c := Nat.mod_lt _ hc
  have h4 : 0 < (D + c - 1) / c := ceilDiv_pos D c hD hc
  have h5 : ((D + c - 1) / c - 1) * c = ((D + c - 1) / c) * c - c := by
    rw [Nat.sub_mul, Nat.one_mul]
  have h3 : c * ((D + c - 1) / c) = ((D + c - 1) / c) * c := Nat.mul_comm _ _
  omega

theorem ceilDiv_le_self (D c : Nat) (hc : 0 < c) : (D + c - 1) / c ≤ D := by
  have h1 : D + c - 1 ≤ c * D + (c - 1) := by
    have : D ≤ c * D := Nat.le_mul_of_pos_left D hc
    omega
  have h2 := Nat.div_le_div_right (c := c) h1
  have h3 : (c * D + (c - 1)) / c = D + (c - 1) / c := by
    rw [Nat.mul_add_div hc]
  have h4 : (c - 1) / c = 0 := Nat.div_eq_of_lt (by omega)
  omega

/-! ### Planner facts -/

theorem chunkSize_toNat (b e g : Int) (nt : Nat) (hbe : b ≤ e) (hnt : 0 < nt) :
    chunkSizeOf b e g nt = max g.toNat (((e - b).toNat + nt - 1) / nt) := by
  unfold chunkSizeOf
  have h1 : e - b = (((e - b).toNat : Nat) : Int) := (Int.toNat_of_nonneg (by omega)).symm
  rw [h1, divup_natCast _ _ hnt, Int.toNat_natCast, Int.toNat_natCast]

theorem chunkSize_pos (b e g : Int) (nt : Nat) (hbe : b < e) (hnt : 0 < nt) :
    0 < chunkSizeOf b e g nt := by
  rw [chunkSize_toNat b e g nt (le_of_lt hbe) hnt]
  have hD : 0 < (e - b).toNat := by omega
  have := ceilDiv_pos (e - b).toNat nt hD hnt
  omega

theorem numTasks_toNat (b e g : Int) (nt : Nat) (hbe : b ≤ e)
    (hcs : 0 < chunkSizeOf b e g nt) :
    numTasksOf b e g nt =
      ((e - b).toNat + chunkSizeOf b e g nt - 1) / chunkSizeOf b e g nt := by
  unfold numTasksOf
  have h1 : e - b = (((e - b).toNat : Nat) : Int) := (Int.toNat_of_nonneg (by omega)).symm
  rw [h1, divup_natCast _ _ hcs, Int.toNat_natCast, Int.toNat_natCast]

theorem numTasks_pos (b e g : Int) (nt : Nat) (hbe : b < e) (hnt : 0 < nt) :
    0 < numTasksOf b e g nt := by
  have hcs := chunkSize_pos b e g nt hbe hnt
  rw [numTasks_toNat b e g nt (le_of_lt hbe) hcs]
  exact ceilDiv_pos _ _ (by omega) hcs

theorem numTasks_mul_ge (b e g : Int) (nt : Nat) (hbe : b < e) (hnt : 0 < nt) :
    (e - b).toNat ≤ numTasksOf b e g nt * chunkSizeOf b e g nt := by
  have hcs := chunkSize_pos b e g nt hbe hnt
  rw [numTasks_toNat b e g nt (le_of_lt hbe) hcs]
  exact ceilDiv_mul_ge _ _ (by omega) hcs

theorem numTasks_pred_mul_lt (b e g : Int) (nt : Nat) (hbe : b < e) (hnt : 0 < nt) :
    (numTasksOf b e g nt - 1) * chunkSizeOf b e g nt < (e - b).toNat := by
  have hcs := chunkSize_pos b e g nt hbe hnt
  rw [numTasks_toNat b e g nt (le_of_lt hbe) hcs]
  exact ceilDiv_pred_mul_lt _ _ (by omega) hcs

theorem grain_le_chunkSize (b e g : Int) (nt : Nat) (hbe : b ≤ e) (hnt : 0 < nt) :
    g.toNat ≤ chunkSizeOf b e g nt := by
  rw [chunkSize_toNat b e g nt hbe hnt]
  exact Nat.le_max_left _ _

theorem chunkSize_mul_nt_ge (b e g : Int) (nt : Nat) (hbe : b < e) (hnt : 0 < nt) :
    (e - b).toNat ≤ chunkSizeOf b e g nt * nt := by
  rw [chunkSize_toNat b e g nt (le_of_lt hbe) hnt]
  have h1 := ceilDiv_mul_ge (e - b).toNat nt (by omega) hnt
  have h2 : ((e - b).toNat + nt - 1) / nt ≤ max g.toNat (((e - b).toNat + nt - 1) / nt) :=
    Nat.le_max_right _ _
  calc (e - b).toNat ≤ (((e - b).toNat + nt - 1) / nt) * nt := h1
    _ ≤ (max g.toNat (((e - b).toNat + nt - 1) / nt)) * nt := Nat.mul_le_mul_right nt h2

theorem chunkSize_le_D (b e g : Int) (nt : Nat) (hbe : b < e) (hnt : 0 < nt)
    (hg : g ≤ e - b) : chunkSizeOf b e g nt ≤ (e - b).toNat := by
  rw [chunkSize_toNat b e g nt (le_of_lt hbe) hnt]
  have h1 : g.toNat ≤ (e - b).toNat := by omega
  have h2 := ceilDiv_le_self (e - b).toNat nt hnt
  omega

/-! ### Chunk bounds without overflow -/

theorem chunkStart_eq_claimed (b e g : Int) (nt k : Nat)
    (hb : -(2 ^ 63) ≤ b) (hk : k ≤ numTasksOf b e g nt)
    (hov : b + (numTasksOf b e g nt : Int) * (chunkSizeOf b e g nt : Int) ≤ 2 ^ 63 - 1) :
    chunkStartC b e g nt k = claimedChunkStart b (chunkSizeOf b e g nt) k := by
  unfold chunkStartC claimedChunkStart localStartOf
  have hmul : ((k : Int)) * (chunkSizeOf b e g nt : Int) ≤
      (numTasksOf b e g nt : Int) * (chunkSizeOf b e g nt : Int) := by
    have : (k : Int) ≤ (numTasksOf b e g nt : Int) := by exact_mod_cast hk
    exact mul_le_mul_of_nonneg_right this (by positivity)
  have hnn : (0 : Int) ≤ (k : Int) * (chunkSizeOf b e g nt : Int) := by positivity
  by_cases h0 : k = 0
  · simp [h0]
  · rw [if_neg h0, asInt64_eq_self _ (by omega) (by omega)]

theorem chunkStop_eq_claimed (b e g : Int) (nt k : Nat)
    (hb : -(2 ^ 63) ≤ b) (hk : k + 1 ≤ numTasksOf b e g nt)
    (hov : b + (numTasksOf b e g nt : Int) * (chunkSizeOf b e g nt : Int) ≤ 2 ^ 63 - 1) :
    chunkStopC b e g nt k = claimedChunkStop b e (chunkSizeOf b e g nt) k := by
  unfold chunkStopC claimedChunkStop localEndOf
  rw [chunkStart_eq_claimed b e g nt k hb (by omega) hov]
  unfold claimedChunkStart
  have hmul : ((k : Int) + 1) * (chunkSizeOf b e g nt : Int) ≤
      (numTasksOf b e g nt : Int) * (chunkSizeOf b e g nt : Int) := by
    have h1 : ((k : Int)) + 1 ≤ (numTasksOf b e g nt : Int) := by exact_mod_cast hk
    exact mul_le_mul_of_nonneg_right h1 (by positivity)
  have hnn : (0 : Int) ≤ ((k : Int) + 1) * (chunkSizeOf b e g nt : Int) := by positivity
  have harr : (chunkSizeOf b e g nt : Int) + (b + (k : Int) * (chunkSizeOf b e g nt : Int)) =
      b + ((k : Int) + 1) * (chunkSizeOf b e g nt : Int) := by ring
  rw [harr, asInt64_eq_self _ (by nlinarith) (by omega)]

theorem localStart_lt_end (b e g : Int) (nt k : Nat)
    (hb : -(2 ^ 63) ≤ b) (he : e ≤ 2 ^ 63 - 1) (hbe : b < e)
    (hD : e - b ≤ 2 ^ 63 - 1) (hnt : 0 < nt)
    (hk1 : 1 ≤ k) (hkn : k < numTasksOf b e g nt) :
    localStartOf b (chunkSizeOf b e g nt) k < e := by
  unfold localStartOf
  have hlt := numTasks_pred_mul_lt b e g nt hbe hnt
  have hkle : k * chunkSizeOf b e g nt ≤ (numTasksOf b e g nt - 1) * chunkSizeOf b e g nt :=
    Nat.mul_le_mul_right _ (by omega)
  have hklt : k * chunkSizeOf b e g nt < (e - b).toNat := by omega
  have hklt2 : ((k : Int)) * (chunkSizeOf b e g nt : Int) < e - b := by
    have : ((k * chunkSizeOf b e g nt : Nat) : Int) < (((e - b).toNat : Nat) : Int) := by
      exact_mod_cast hklt
    rw [Int.toNat_of_nonneg (by omega)] at this
    push_cast at this
    exact this
  have hnn : (0 : Int) ≤ (k : Int) * (chunkSizeOf b e g nt : Int) := by positivity
  rw [asInt64_eq_self _ (by omega) (by omega)]
  omega

theorem chunkStart_lt_end (b e g : Int) (nt k : Nat)
    (hb : -(2 ^ 63) ≤ b) (he : e ≤ 2 ^ 63 - 1) (hbe : b < e)
    (hD : e - b ≤ 2 ^ 63 - 1) (hnt : 0 < nt)
    (hkn : k < numTasksOf b e g nt) :
    chunkStartC b e g nt k < e := by
  unfold chunkStartC
  by_cases h0 : k = 0
  · rw [if_pos h0]; exact hbe
  · rw [if_neg h0]
    exact localStart_lt_end b e g nt k hb he hbe hD hnt (by omega) hkn

/-! ### Branch evaluation lemmas for the two engines -/

theorem mem_range_drop_one {n k : Nat} (hk : k ∈ (List.range n).drop 1) :
    1 ≤ k ∧ k < n := by
  cases n with
  | zero => simp at hk
  | succ m =>
    rw [List.range_succ_eq_map, List.drop_succ_cons, List.drop_zero] at hk
    simp only [List.mem_map, List.mem_range] at hk
    obtain ⟨j, hj, rfl⟩ := hk
    omega

theorem parallelFor_parallel_eq {ε : Type} (nt : Nat) (sched : List Nat) (ctx : RegionCtx)
    (b e g : Int) (f : Int → Int → Except ε PUnit)
    (h1 : ¬ e ≤ b) (h2 : ¬ g < 0) (h3 : g ≤ e - b ∧ ctx.inParallelRegion = false) :
    parallelFor nt sched ctx b e g f =
      { outcome := match firstErr sched (fun k => k == 0 || decide (chunkStartC b e g nt k < e))
            (fun k => f (chunkStartC b e g nt k) (chunkStopC b e g nt k)) with
          | some ex => ForOutcome.bodyErr ex
          | none => ForOutcome.ok,
        runs := ((List.range (numTasksOf b e g nt)).filter
            (fun k => k == 0 || decide (chunkStartC b e g nt k < e))).map (fun k =>
          { taskId := some k, start := chunkStartC b e g nt k, stop := chunkStopC b e g nt k,
            ctxSeen := { inParallelRegion := true, threadNum := some k },
            ctxAfter := defaultRegionCtx }),
        dispatched := ((List.range (numTasksOf b e g nt)).drop 1).filter
            (fun k => decide (chunkStartC b e g nt k < e)),
        fallback := ((List.range (numTasksOf b e g nt)).drop 1).filter
            (fun k => ! decide (chunkStartC b e g nt k < e)),
        waited := (List.range (numTasksOf b e g nt)).drop 1,
        finalCtx := defaultRegionCtx } := by
  unfold parallelFor
  rw [if_neg h1, if_neg h2, if_pos h3]

theorem parallelReduce_parallel_eq {α ε : Type} (nt : Nat) (sched : List Nat)
    (ctx : RegionCtx) (b e g : Int) (ident z : α)
    (f : Int → Int → α → Except ε α) (sf : α → α → α)
    (h1 : ¬ e ≤ b) (h2 : ¬ g < 0) (h3 : g ≤ e - b ∧ ctx.inParallelRegion = false) :
    parallelReduce nt sched ctx b e g ident z f sf =
      { outcome := match firstErr sched (fun k => k == 0 || decide (chunkStartC b e g nt k < e))
            (fun k => f (chunkStartC b e g nt k) (chunkStopC b e g nt k) ident) with
          | some ex => ReduceOutcome.bodyErr ex
          | none => ReduceOutcome.ok (((List.range (numTasksOf b e g nt)).map (fun k =>
              if (fun k => k == 0 || decide (chunkStartC b e g nt k < e)) k then
                match f (chunkStartC b e g nt k) (chunkStopC b e g nt k) ident with
                | Except.ok v => v
                | Except.error _ => z
              else z)).foldl sf ident),
        runs := ((List.range (numTasksOf b e g nt)).filter
            (fun k => k == 0 || decide (chunkStartC b e g nt k < e))).map (fun k =>
          { taskId := some k, start := chunkStartC b e g nt k, stop := chunkStopC b e g nt k,
            ctxSeen := { inParallelRegion := true, threadNum := some k },
            ctxAfter := defaultRegionCtx }),
        dispatched := ((List.range (numTasksOf b e g nt)).drop 1).filter
            (fun k => decide (chunkStartC b e g nt k < e)),
        fallback := ((List.range (numTasksOf b e g nt)).drop 1).filter
            (fun k => ! decide (chunkStartC b e g nt k < e)),
        waited := (List.range (numTasksOf b e g nt)).drop 1,
        resultsAllocated := true,
        finalCtx := defaultRegionCtx } := by
  unfold parallelReduce
  rw [if_neg h1, if_neg h2, if_pos h3]

/-! ### Under representable inputs every task is executed and dispatched -/

theorem isExec_all (b e g : Int) (nt : Nat)
    (hb : -(2 ^ 63) ≤ b) (he : e ≤ 2 ^ 63 - 1) (hbe : b < e)
    (hD : e - b ≤ 2 ^ 63 - 1) (hnt : 0 < nt) :
    ∀ k < numTasksOf b e g nt,
      (k == 0 || decide (chunkStartC b e g nt k < e)) = true := by
  intro k hk
  rcases Nat.eq_zero_or_pos k with h0 | h0
  · subst h0; simp
  · have := chunkStart_lt_end b e g nt k hb he hbe hD hnt hk
    simp [this]

theorem executed_all (b e g : Int) (nt : Nat)
    (hb : -(2 ^ 63) ≤ b) (he : e ≤ 2 ^ 63 - 1) (hbe : b < e)
    (hD : e - b ≤ 2 ^ 63 - 1) (hnt : 0 < nt) :
    (List.range (numTasksOf b e g nt)).filter
        (fun k => k == 0 || decide (chunkStartC b e g nt k < e)) =
      List.range (numTasksOf b e g nt) := by
  apply List.filter_eq_self.mpr
  intro k hk
  exact isExec_all b e g nt hb he hbe hD hnt k (List.mem_range.mp hk)

theorem dispatched_all (b e g : Int) (nt : Nat)
    (hb : -(2 ^ 63) ≤ b) (he : e ≤ 2 ^ 63 - 1) (hbe : b < e)
    (hD : e - b ≤ 2 ^ 63 - 1) (hnt : 0 < nt) :
    ((List.range (numTasksOf b e g nt)).drop 1).filter
        (fun k => decide (chunkStartC b e g nt k < e)) =
      (List.range (numTasksOf b e g nt)).drop 1 := by
  apply List.filter_eq_self.mpr
  intro k hk
  obtain ⟨hk1, hk2⟩ := mem_range_drop_one hk
  simp only [decide_eq_true_eq]
  exact chunkStart_lt_end b e g nt k hb he hbe hD hnt hk2

theorem fallback_nil (b e g : Int) (nt : Nat)
    (hb : -(2 ^ 63) ≤ b) (he : e ≤ 2 ^ 63 - 1) (hbe : b < e)
    (hD : e - b ≤ 2 ^ 63 - 1) (hnt : 0 < nt) :
    ((List.range (numTasksOf b e g nt)).drop 1).filter
        (fun k => ! decide (chunkStartC b e g nt k < e)) = [] := by
  rw [List.filter_eq_nil_iff]
  intro k hk
  obtain ⟨hk1, hk2⟩ := mem_range_drop_one hk
  have := chunkStart_lt_end b e g nt k hb he hbe hD hnt hk2
  simp [this]

/-! ### Exception-race lemmas -/

theorem firstErr_none {ε α : Type} (sched : List Nat) (isExec : Nat → Bool)
    (res : Nat → Except ε α)
    (h : ∀ k, isExec k = true → ∃ v, res k = Except.ok v) :
    firstErr sched isExec res = none := by
  unfold firstErr
  rw [List.findSome?_eq_none_iff]
  intro k _
  by_cases hk : isExec k = true
  · obtain ⟨v, hv⟩ := h k hk
    simp [hk, hv]
  · simp [hk]

theorem firstErr_first {ε α : Type} (l₁ l₂ : List Nat) (k : Nat) (ex : ε)
    (isExec : Nat → Bool) (res : Nat → Except ε α)
    (hok : ∀ j ∈ l₁, isExec j = true → ∃ v, res j = Except.ok v)
    (hexec : isExec k = true) (herr : res k = Except.error ex) :
    firstErr (l₁ ++ k :: l₂) isExec res = some ex := by
  unfold firstErr
  rw [List.findSome?_append]
  have h1 : List.findSome? (fun k =>
      if isExec k then
        match res k with
        | Except.error ex => some ex
        | Except.ok _ => none
      else none) l₁ = none := by
    rw [List.findSome?_eq_none_iff]
    intro j hj
    by_cases hjE : isExec j = true
    · obtain ⟨v, hv⟩ := hok j hj hjE
      simp [hjE, hv]
    · simp [hjE]
  rw [h1, Option.none_or, List.findSome?_cons_of_isSome]
  · simp [hexec, herr]
  · simp [hexec, herr]

/-! ### Sequential and guard branches -/

theorem parallelFor_seq_eq {ε : Type} (nt : Nat) (sched : List Nat) (ctx : RegionCtx)
    (b e g : Int) (f : Int → Int → Except ε PUnit)
    (h1 : ¬ e ≤ b) (h2 : ¬ g < 0) (h3 : ¬ (g ≤ e - b ∧ ctx.inParallelRegion = false)) :
    parallelFor nt sched ctx b e g f =
      match f b e with
      | Except.ok _ =>
        { outcome := ForOutcome.ok,
          runs := [{ taskId := none, start := b, stop := e, ctxSeen := ctx, ctxAfter := ctx }],
          dispatched := [], fallback := [], waited := [], finalCtx := ctx }
      | Except.error ex =>
        { outcome := ForOutcome.bodyErr ex,
          runs := [{ taskId := none, start := b, stop := e, ctxSeen := ctx, ctxAfter := ctx }],
          dispatched := [], fallback := [], waited := [], finalCtx := ctx } := by
  unfold parallelFor
  rw [if_neg h1, if_neg h2, if_neg h3]

theorem parallelReduce_seq_eq {α ε : Type} (nt : Nat) (sched : List Nat) (ctx : RegionCtx)
    (b e g : Int) (ident z : α) (f : Int → Int → α → Except ε α) (sf : α → α → α)
    (h1 : ¬ e ≤ b) (h2 : ¬ g < 0) (h3 : ¬ (g ≤ e - b ∧ ctx.inParallelRegion = false)) :
    parallelReduce nt sched ctx b e g ident z f sf =
      match f b e ident with
      | Except.ok v =>
        { outcome := ReduceOutcome.ok v,
          runs := [{ taskId := none, start := b, stop := e, ctxSeen := ctx, ctxAfter := ctx }],
          dispatched := [], fallback := [], waited := [], resultsAllocated := false,
          finalCtx := ctx }
      | Except.error ex =>
        { outcome := ReduceOutcome.bodyErr ex,
          runs := [{ taskId := none, start := b, stop := e, ctxSeen := ctx, ctxAfter := ctx }],
          dispatched := [], fallback := [], waited := [], resultsAllocated := false,
          finalCtx := ctx } := by
  unfold parallelReduce
  rw [if_neg h1, if_neg h2, if_neg h3]

/-! ### Partition property of the claimed chunk intervals -/

theorem claimed_nonempty (b e g : Int) (nt k : Nat) (hbe : b < e) (hnt : 0 < nt)
    (hk : k < numTasksOf b e g nt) :
    claimedChunkStart b (chunkSizeOf b e g nt) k <
      claimedChunkStop b e (chunkSizeOf b e g nt) k := by
  have hcs := chunkSize_pos b e g nt hbe hnt
  have hlt := numTasks_pred_mul_lt b e g nt hbe hnt
  have hkle : k * chunkSizeOf b e g nt ≤
      (numTasksOf b e g nt - 1) * chunkSizeOf b e g nt :=
    Nat.mul_le_mul_right _ (by omega)
  have hklt : k * chunkSizeOf b e g nt < (e - b).toNat := Nat.lt_of_le_of_lt hkle hlt
  have hklt2 : ((k * chunkSizeOf b e g nt : Nat) : Int) < e - b := by
    have h2 : ((k * chunkSizeOf b e g nt : Nat) : Int) < (((e - b).toNat : Nat) : Int) := by
      exact_mod_cast hklt
    rwa [Int.toNat_of_nonneg (by omega)] at h2
  push_cast at hklt2
  unfold claimedChunkStart claimedChunkStop
  rw [lt_min_iff]
  constructor
  · linarith
  · have hcsI : (0 : Int) < (chunkSizeOf b e g nt : Int) := by exact_mod_cast hcs
    nlinarith

theorem claimed_contiguous (b e g : Int) (nt k : Nat) (hbe : b < e) (hnt : 0 < nt)
    (hk : k + 1 < numTasksOf b e g nt) :
    claimedChunkStop b e (chunkSizeOf b e g nt) k =
      claimedChunkStart b (chunkSizeOf b e g nt) (k + 1) := by
  have hcs := chunkSize_pos b e g nt hbe hnt
  have hlt := numTasks_pred_mul_lt b e g nt hbe hnt
  have hkle : (k + 1) * chunkSizeOf b e g nt ≤
      (numTasksOf b e g nt - 1) * chunkSizeOf b e g nt :=
    Nat.mul_le_mul_right _ (by omega)
  have hklt : (k + 1) * chunkSizeOf b e g nt < (e - b).toNat := Nat.lt_of_le_of_lt hkle hlt
  have hklt2 : (((k + 1) * chunkSizeOf b e g nt : Nat) : Int) < e - b := by
    have h2 : (((k + 1) * chunkSizeOf b e g nt : Nat) : Int) < (((e - b).toNat : Nat) : Int) := by
      exact_mod_cast hklt
    rwa [Int.toNat_of_nonneg (by omega)] at h2
  push_cast at hklt2
  unfold claimedChunkStop claimedChunkStart
  rw [min_eq_right (by linarith)]
  push_cast [Nat.cast_add]
  ring

theorem claimed_last_stop (b e g : Int) (nt : Nat) (hbe : b < e) (hnt : 0 < nt) :
    claimedChunkStop b e (chunkSizeOf b e g nt) (numTasksOf b e g nt - 1) = e := by
  have hn := numTasks_pos b e g nt hbe hnt
  have hge := numTasks_mul_ge b e g nt hbe hnt
  have hgeI : e - b ≤ ((numTasksOf b e g nt * chunkSizeOf b e g nt : Nat) : Int) := by
    have h2 : (((e - b).toNat : Nat) : Int) ≤ ((numTasksOf b e g nt * chunkSizeOf b e g nt : Nat) : Int) := by
      exact_mod_cast hge
    rwa [Int.toNat_of_nonneg (by omega)] at h2
  push_cast at hgeI
  unfold claimedChunkStop
  have hsub : ((numTasksOf b e g nt - 1 : Nat) : Int) + 1 = (numTasksOf b e g nt : Nat) := by
    omega
  rw [min_eq_left]
  rw [hsub]
  linarith

theorem claimed_cover_exists (b e g : Int) (nt : Nat) (hbe : b < e) (hnt : 0 < nt)
    (i : Int) (hi1 : b ≤ i) (hi2 : i < e) :
    ∃ kk, kk < numTasksOf b e g nt ∧
      claimedChunkStart b (chunkSizeOf b e g nt) kk ≤ i ∧
      i < claimedChunkStop b e (chunkSizeOf b e g nt) kk := by
  have hcs := chunkSize_pos b e g nt hbe hnt
  have ho : (((i - b).toNat : Nat) : Int) = i - b := Int.toNat_of_nonneg (by omega)
  have hoD : (i - b).toNat < (e - b).toNat := by omega
  set q := (i - b).toNat / chunkSizeOf b e g nt with hq
  refine ⟨q, ?_, ?_, ?_⟩
  · rw [hq, Nat.div_lt_iff_lt_mul hcs]
    exact Nat.lt_of_lt_of_le hoD (numTasks_mul_ge b e g nt hbe hnt)
  · have h1 : q * chunkSizeOf b e g nt ≤ (i - b).toNat := by
      rw [hq]; exact Nat.div_mul_le_self _ _
    have h1c : ((q * chunkSizeOf b e g nt : Nat) : Int) ≤
        (((i - b).toNat : Nat) : Int) := by exact_mod_cast h1
    rw [ho] at h1c
    push_cast at h1c
    unfold claimedChunkStart
    linarith
  · have h3 : (i - b).toNat < (q + 1) * chunkSizeOf b e g nt := by
      rw [hq, Nat.succ_mul]
      nlinarith [Nat.div_add_mod (i - b).toNat (chunkSizeOf b e g nt),
        Nat.mod_lt (i - b).toNat hcs]
    have h3c : (((i - b).toNat : Nat) : Int) <
        (((q + 1) * chunkSizeOf b e g nt : Nat) : Int) := by
      exact_mod_cast h3
    rw [ho] at h3c
    push_cast at h3c
    unfold claimedChunkStop
    rw [lt_min_iff]
    exact ⟨hi2, by linarith⟩

theorem claimed_cover_unique (b e g : Int) (nt : Nat) (hbe : b < e) (hnt : 0 < nt)
    (k₁ k₂ : Nat) (i : Int)
    (hs₁ : claimedChunkStart b (chunkSizeOf b e g nt) k₁ ≤ i)
    (ht₁ : i < claimedChunkStop b e (chunkSizeOf b e g nt) k₁)
    (hs₂ : claimedChunkStart b (chunkSizeOf b e g nt) k₂ ≤ i)
    (ht₂ : i < claimedChunkStop b e (chunkSizeOf b e g nt) k₂) :
    k₁ = k₂ := by
  have hcs := chunkSize_pos b e g nt hbe hnt
  have ho : (((i - b).toNat : Nat) : Int) = i - b := by
    apply Int.toNat_of_nonneg
    have := hs₁
    unfold claimedChunkStart at this
    have hnn : (0 : Int) ≤ (k₁ : Int) * (chunkSizeOf b e g nt : Int) := by positivity
    omega
  have key : ∀ k : Nat, claimedChunkStart b (chunkSizeOf b e g nt) k ≤ i →
      i < claimedChunkStop b e (chunkSizeOf b e g nt) k →
      k = (i - b).toNat / chunkSizeOf b e g nt := by
    intro k hs ht
    unfold claimedChunkStart at hs
    unfold claimedChunkStop at ht
    rw [lt_min_iff] at ht
    have hlo : ((k * chunkSizeOf b e g nt : Nat) : Int) ≤ (((i - b).toNat : Nat) : Int) := by
      rw [ho]; push_cast; linarith
    have hhi : (((i - b).toNat : Nat) : Int) < (((k + 1) * chunkSizeOf b e g nt : Nat) : Int) := by
      rw [ho]; push_cast; linarith [ht.2]
    have hloN : k * chunkSizeOf b e g nt ≤ (i - b).toNat := by exact_mod_cast hlo
    have hhiN : (i - b).toNat < (k + 1) * chunkSizeOf b e g nt := by exact_mod_cast hhi
    exact (Nat.div_eq_of_lt_le hloN hhiN).symm
  rw [key k₁ hs₁ ht₁, key k₂ hs₂ ht₂]

theorem claimed_subset_range (b e g : Int) (nt k : Nat)
    (i : Int)
    (hs : claimedChunkStart b (chunkSizeOf b e g nt) k ≤ i)
    (ht : i < claimedChunkStop b e (chunkSizeOf b e g nt) k) :
    b ≤ i ∧ i < e := by
  unfold claimedChunkStart at hs
  unfold claimedChunkStop at ht
  rw [lt_min_iff] at ht
  have hnn : (0 : Int) ≤ (k : Int) * (chunkSizeOf b e g nt : Int) := by positivity
  exact ⟨by linarith, ht.1⟩

/-! ### Fold lemmas for parallel_reduce -/

theorem foldl_sf_shift {α : Type} (sf : α → α → α)
    (hassoc : ∀ x y z, sf (sf x y) z = sf x (sf y z)) :
    ∀ (l : List α) (a c : α), sf a (l.foldl sf c) = l.foldl sf (sf a c) := by
  intro l
  induction l with
  | nil => intro a c; rfl
  | cons x l ih =>
    intro a c
    simp only [List.foldl_cons]
    rw [ih, hassoc]

theorem rangeList_append (s m t : Int) (h1 : s ≤ m) (h2 : m ≤ t) :
    rangeList s t = rangeList s m ++ rangeList m t := by
  unfold rangeList
  have ha : (t - s).toNat = (m - s).toNat + (t - m).toNat := by omega
  rw [ha, List.range_add, List.map_append, List.map_map]
  congr 1
  apply List.map_congr_left
  intro x _
  simp only [Function.comp_apply]
  omega

theorem seqFoldOver_empty {α : Type} (sf : α → α → α) (elem : Int → α) (a : α)
    (s t : Int) (h : t ≤ s) : seqFoldOver sf elem a s t = a := by
  unfold seqFoldOver rangeList
  rw [show (t - s).toNat = 0 by omega]
  rfl

theorem seqFoldOver_glue {α : Type} (sf : α → α → α) (elem : Int → α) (ident : α)
    (hassoc : ∀ x y z, sf (sf x y) z = sf x (sf y z))
    (hid_r : ∀ x, sf x ident = x)
    (s m t : Int) (h1 : s ≤ m) (h2 : m ≤ t) :
    sf (seqFoldOver sf elem ident s m) (seqFoldOver sf elem ident m t) =
      seqFoldOver sf elem ident s t := by
  unfold seqFoldOver
  rw [rangeList_append s m t h1 h2, List.map_append, List.foldl_append]
  rw [foldl_sf_shift sf hassoc, hid_r]

theorem fold_chunks_eq (b e g : Int) (nt : Nat) {α : Type} (sf : α → α → α)
    (elem : Int → α) (ident : α)
    (hassoc : ∀ x y z, sf (sf x y) z = sf x (sf y z))
    (hid_r : ∀ x, sf x ident = x)
    (hbe : b < e) (hnt : 0 < nt) :
    ((List.range (numTasksOf b e g nt)).map (fun k =>
        seqFoldOver sf elem ident (claimedChunkStart b (chunkSizeOf b e g nt) k)
          (claimedChunkStop b e (chunkSizeOf b e g nt) k))).foldl sf ident =
      seqFoldOver sf elem ident b e := by
  have hcs := chunkSize_pos b e g nt hbe hnt
  have hpred := numTasks_pred_mul_lt b e g nt hbe hnt
  have hge := numTasks_mul_ge b e g nt hbe hnt
  have hD0 : 0 < (e - b).toNat := by omega
  have heb : e = b + (((e - b).toNat : Nat) : Int) := by omega
  -- running total after the first j chunks ends at this index
  have hSmono : ∀ j : Nat,
      min ((e - b).toNat) (j * chunkSizeOf b e g nt) ≤
        min ((e - b).toNat) ((j + 1) * chunkSizeOf b e g nt) :=
    fun j => min_le_min (le_refl _) (Nat.mul_le_mul_right _ (by omega))
  have hstart : ∀ j : Nat, j < numTasksOf b e g nt →
      claimedChunkStart b (chunkSizeOf b e g nt) j =
        b + ((min ((e - b).toNat) (j * chunkSizeOf b e g nt) : Nat) : Int) := by
    intro j hj
    have h1 : j * chunkSizeOf b e g nt ≤
        (numTasksOf b e g nt - 1) * chunkSizeOf b e g nt :=
      Nat.mul_le_mul_right _ (by omega)
    have h2 : j * chunkSizeOf b e g nt ≤ (e - b).toNat := by
      have := Nat.lt_of_le_of_lt h1 hpred
      omega
    rw [min_eq_right h2]
    unfold claimedChunkStart
    push_cast
    ring
  have hstop : ∀ j : Nat,
      claimedChunkStop b e (chunkSizeOf b e g nt) j =
        b + ((min ((e - b).toNat) ((j + 1) * chunkSizeOf b e g nt) : Nat) : Int) := by
    intro j
    unfold claimedChunkStop
    have hx : ((j : Int) + 1) * (chunkSizeOf b e g nt : Int) =
        (((j + 1) * chunkSizeOf b e g nt : Nat) : Int) := by
      push_cast; ring
    rw [hx]
    omega
  have main : ∀ j, j ≤ numTasksOf b e g nt →
      ((List.range j).map (fun k =>
          seqFoldOver sf elem ident (claimedChunkStart b (chunkSizeOf b e g nt) k)
            (claimedChunkStop b e (chunkSizeOf b e g nt) k))).foldl sf ident =
        seqFoldOver sf elem ident b
          (b + ((min ((e - b).toNat) (j * chunkSizeOf b e g nt) : Nat) : Int)) := by
    intro j
    induction j with
    | zero =>
      intro _
      simp only [List.range_zero, List.map_nil, List.foldl_nil, Nat.zero_mul,
        Nat.min_zero, Nat.cast_zero, add_zero]
      rw [seqFoldOver_empty _ _ _ _ _ (le_refl b)]
    | succ j ih =>
      intro hj
      have hj1 : j ≤ numTasksOf b e g nt := by omega
      have hjn : j < numTasksOf b e g nt := by omega
      rw [List.range_succ, List.map_append, List.foldl_append]
      simp only [List.map_cons, List.map_nil, List.foldl_cons, List.foldl_nil]
      rw [ih hj1]
      rw [hstart j hjn, hstop j]
      have hA : b ≤ b +
          ((min ((e - b).toNat) (j * chunkSizeOf b e g nt) : Nat) : Int) :=
        le_add_of_nonneg_right (by positivity)
      have hB : b + ((min ((e - b).toNat) (j * chunkSizeOf b e g nt) : Nat) : Int) ≤
          b + ((min ((e - b).toNat) ((j + 1) * chunkSizeOf b e g nt) : Nat) : Int) :=
        add_le_add_left (Int.ofNat_le.mpr (hSmono j)) b
      rw [seqFoldOver_glue sf elem ident hassoc hid_r _ _ _ hA hB]
  have hfinal := main (numTasksOf b e g nt) (le_refl _)
  rw [hfinal, min_eq_left hge]
  congr 1
  omega

/-! ### Claim theorems -/

/-- C5: for every `begin >= end` and every grain size (negative ones included),
`parallel_for` returns immediately with zero body invocations and no error, and
`parallel_reduce` returns the identity untouched without invoking the chunk function or
the combiner: both calls are complete no-ops (no dispatch, no futures, no waits, no
region-state change). -/
theorem C5_empty_range {ε α : Type} (nt : Nat) (sched : List Nat) (ctx : RegionCtx)
    (b e g : Int) (fb : Int → Int → Except ε PUnit)
    (fr : Int → Int → α → Except ε α) (ident z : α) (sf : α → α → α)
    (hbe : e ≤ b) :
    parallelFor nt sched ctx b e g fb =
      { outcome := ForOutcome.ok, runs := [], dispatched := [], fallback := [],
        waited := [], finalCtx := ctx } ∧
    parallelReduce nt sched ctx b e g ident z fr sf =
      { outcome := ReduceOutcome.ok ident, runs := [], dispatched := [], fallback := [],
        waited := [], resultsAllocated := false, finalCtx := ctx } := by
  constructor
  · unfold parallelFor
    rw [if_pos hbe]
  · unfold parallelReduce
    rw [if_pos hbe]

/-- Witness for C5 at `begin = 5`, `end = 3`, `grain_size = -7`. -/
theorem C5_empty_range_witness :
    ((3 : Int) ≤ 5) ∧
    (parallelFor 2 [] defaultRegionCtx 5 3 (-7)
        (fun _ _ => Except.ok PUnit.unit) (ε := String) =
      { outcome := ForOutcome.ok, runs := [], dispatched := [], fallback := [],
        waited := [], finalCtx := defaultRegionCtx } ∧
    parallelReduce 2 [] defaultRegionCtx 5 3 (-7) (0 : Int) 0
        (fun _ _ a => Except.ok a) (fun x y => x + y) (ε := String) =
      { outcome := ReduceOutcome.ok 0, runs := [], dispatched := [], fallback := [],
        waited := [], resultsAllocated := false, finalCtx := defaultRegionCtx }) :=
  ⟨by decide,
   C5_empty_range 2 [] defaultRegionCtx 5 3 (-7) (fun _ _ => Except.ok PUnit.unit)
     (fun _ _ a => Except.ok a) 0 0 (fun x y => x + y) (by decide)⟩

/-- C6: for every `begin < end` with `grain_size < 0`, both primitives fail with the
invalid-argument error before any dispatch: zero body invocations, no dispatched tasks,
no futures, no waits, no results buffer, no region-state change. -/
theorem C6_negative_grain {ε α : Type} (nt : Nat) (sched : List Nat) (ctx : RegionCtx)
    (b e g : Int) (fb : Int → Int → Except ε PUnit)
    (fr : Int → Int → α → Except ε α) (ident z : α) (sf : α → α → α)
    (hbe : b < e) (hg : g < 0) :
    parallelFor nt sched ctx b e g fb =
      { outcome := ForOutcome.invalidArg, runs := [], dispatched := [], fallback := [],
        waited := [], finalCtx := ctx } ∧
    parallelReduce nt sched ctx b e g ident z fr sf =
      { outcome := ReduceOutcome.invalidArg, runs := [], dispatched := [], fallback := [],
        waited := [], resultsAllocated := false, finalCtx := ctx } := by
  constructor
  · unfold parallelFor
    rw [if_neg (by omega), if_pos hg]
  · unfold parallelReduce
    rw [if_neg (by omega), if_pos hg]

/-- Witness for C6 at `begin = 0`, `end = 3`, `grain_size = -1`. -/
theorem C6_negative_grain_witness :
    ((0 : Int) < 3) ∧ ((-1 : Int) < 0) ∧
    (parallelFor 4 [] defaultRegionCtx 0 3 (-1)
        (fun _ _ => Except.ok PUnit.unit) (ε := String) =
      { outcome := ForOutcome.invalidArg, runs := [], dispatched := [], fallback := [],
        waited := [], finalCtx := defaultRegionCtx } ∧
    parallelReduce 4 [] defaultRegionCtx 0 3 (-1) (0 : Int) 0
        (fun _ _ a => Except.ok a) (fun x y => x + y) (ε := String) =
      { outcome := ReduceOutcome.invalidArg, runs := [], dispatched := [], fallback := [],
        waited := [], resultsAllocated := false, finalCtx := defaultRegionCtx }) :=
  ⟨by decide, by decide,
   C6_negative_grain 4 [] defaultRegionCtx 0 3 (-1) (fun _ _ => Except.ok PUnit.unit)
     (fun _ _ a => Except.ok a) 0 0 (fun x y => x + y) (by decide) (by decide)⟩

/-- C4: for every call with `begin < end`, `grain_size >= 0` in which the range is
smaller than the grain size or the calling thread is already inside a parallel region,
`parallel_for` invokes the body exactly once as `body(begin, end)` directly on the
calling thread (observing the caller's untouched region state) and `parallel_reduce`
returns `f(begin, end, identity)`; there is no pool dispatch, no future, no wait, no
results-buffer allocation and no region-state mutation; a body exception propagates
directly. -/
theorem C4_sequential_path {ε α : Type} (nt : Nat) (sched : List Nat) (ctx : RegionCtx)
    (b e g : Int) (fb : Int → Int → Except ε PUnit)
    (fr : Int → Int → α → Except ε α) (ident z : α) (sf : α → α → α)
    (hbe : b < e) (hg : 0 ≤ g)
    (hseq : e - b < g ∨ ctx.inParallelRegion = true) :
    (∀ v, fb b e = Except.ok v →
      parallelFor nt sched ctx b e g fb =
        { outcome := ForOutcome.ok,
          runs := [{ taskId := none, start := b, stop := e, ctxSeen := ctx, ctxAfter := ctx }],
          dispatched := [], fallback := [], waited := [], finalCtx := ctx }) ∧
    (∀ ex, fb b e = Except.error ex →
      parallelFor nt sched ctx b e g fb =
        { outcome := ForOutcome.bodyErr ex,
          runs := [{ taskId := none, start := b, stop := e, ctxSeen := ctx, ctxAfter := ctx }],
          dispatched := [], fallback := [], waited := [], finalCtx := ctx }) ∧
    (∀ v, fr b e ident = Except.ok v →
      parallelReduce nt sched ctx b e g ident z fr sf =
        { outcome := ReduceOutcome.ok v,
          runs := [{ taskId := none, start := b, stop := e, ctxSeen := ctx, ctxAfter := ctx }],
          dispatched := [], fallback := [], waited := [], resultsAllocated := false,
          finalCtx := ctx }) ∧
    (∀ ex, fr b e ident = Except.error ex →
      parallelReduce nt sched ctx b e g ident z fr sf =
        { outcome := ReduceOutcome.bodyErr ex,
          runs := [{ taskId := none, start := b, stop := e, ctxSeen := ctx, ctxAfter := ctx }],
          dispatched := [], fallback := [], waited := [], resultsAllocated := false,
          finalCtx := ctx }) := by
  have h3 : ¬ (g ≤ e - b ∧ ctx.inParallelRegion = false) := by
    rcases hseq with h | h
    · intro hc
      omega
    · intro hc
      rw [h] at hc
      exact absurd hc.2 (by simp)
  have hF := parallelFor_seq_eq nt sched ctx b e g fb (by omega) (by omega) h3
  have hR := parallelReduce_seq_eq nt sched ctx b e g ident z fr sf (by omega) (by omega) h3
  refine ⟨?_, ?_, ?_, ?_⟩
  · intro v hv
    rw [hF, hv]
  · intro ex hv
    rw [hF, hv]
  · intro v hv
    rw [hR, hv]
  · intro ex hv
    rw [hR, hv]

/-- Witness for C4 at `begin = 0`, `end = 3`, `grain_size = 5` (range smaller than the
grain size). -/
theorem C4_sequential_path_witness :
    ((0 : Int) < 3) ∧ ((0 : Int) ≤ 5) ∧
    ((3 : Int) - 0 < 5 ∨ defaultRegionCtx.inParallelRegion = true) ∧
    (parallelFor 4 [] defaultRegionCtx 0 3 5
        (fun _ _ => (Except.ok PUnit.unit : Except String PUnit)) =
      { outcome := ForOutcome.ok,
        runs := [{ taskId := none, start := 0, stop := 3,
                   ctxSeen := defaultRegionCtx, ctxAfter := defaultRegionCtx }],
        dispatched := [], fallback := [], waited := [], finalCtx := defaultRegionCtx }) ∧
    (parallelReduce 4 [] defaultRegionCtx 0 3 5 (10 : Int) 0
        (fun s t a => (Except.ok (a + t - s) : Except String Int)) (fun x y => x + y) =
      { outcome := ReduceOutcome.ok 13,
        runs := [{ taskId := none, start := 0, stop := 3,
                   ctxSeen := defaultRegionCtx, ctxAfter := defaultRegionCtx }],
        dispatched := [], fallback := [], waited := [], resultsAllocated := false,
        finalCtx := defaultRegionCtx }) := by
  have h := C4_sequential_path 4 [] defaultRegionCtx 0 3 5
    (fun _ _ => (Except.ok PUnit.unit : Except String PUnit))
    (fun s t a => (Except.ok (a + t - s) : Except String Int)) 10 0
    (fun x y => x + y) (by decide) (by decide) (Or.inl (by decide))
  exact ⟨by decide, by decide, Or.inl (by decide),
    h.1 PUnit.unit rfl, h.2.2.1 13 (by norm_num)⟩

/-- C10 (amended): in the parallel path, for every dispatched task id in
`1..num_tasks-1` the chunk start `begin + task_id*chunk_size` is strictly below `end`
(consequence of `num_tasks = ceil((end-begin)/chunk_size)`), so the fallback branch
that completes a future without dispatching work is unreachable and every task
`1..num_tasks-1` is dispatched; provided additionally that
`begin + num_tasks*chunk_size` does not overflow `int64_t`, every chunk is non-empty as
an index range. -/
theorem C10_dispatch_guard {ε α : Type} (nt : Nat) (sched : List Nat) (ctx : RegionCtx)
    (b e g : Int) (fb : Int → Int → Except ε PUnit)
    (fr : Int → Int → α → Except ε α) (ident z : α) (sf : α → α → α)
    (hb : -(2 ^ 63) ≤ b) (he : e ≤ 2 ^ 63 - 1) (hbe : b < e)
    (hD : e - b ≤ 2 ^ 63 - 1) (hg : 0 ≤ g) (hge : g ≤ e - b) (hnt : 0 < nt)
    (hctx : ctx.inParallelRegion = false) :
    (∀ k, 1 ≤ k → k < numTasksOf b e g nt →
      localStartOf b (chunkSizeOf b e g nt) k < e) ∧
    (parallelFor nt sched ctx b e g fb).dispatched =
      (List.range (numTasksOf b e g nt)).drop 1 ∧
    (parallelFor nt sched ctx b e g fb).fallback = [] ∧
    (parallelReduce nt sched ctx b e g ident z fr sf).dispatched =
      (List.range (numTasksOf b e g nt)).drop 1 ∧
    (parallelReduce nt sched ctx b e g ident z fr sf).fallback = [] ∧
    ((b + (numTasksOf b e g nt : Int) * (chunkSizeOf b e g nt : Int) ≤ 2 ^ 63 - 1) →
      ∀ k, k < numTasksOf b e g nt →
        chunkStartC b e g nt k < chunkStopC b e g nt k) := by
  have h1 : ¬ e ≤ b := by omega
  have h2 : ¬ g < 0 := by omega
  have h3 : g ≤ e - b ∧ ctx.inParallelRegion = false := ⟨hge, hctx⟩
  refine ⟨?_, ?_, ?_, ?_, ?_, ?_⟩
  · intro k hk1 hk2
    exact localStart_lt_end b e g nt k hb he hbe hD hnt hk1 hk2
  · rw [parallelFor_parallel_eq nt sched ctx b e g fb h1 h2 h3]
    exact dispatched_all b e g nt hb he hbe hD hnt
  · rw [parallelFor_parallel_eq nt sched ctx b e g fb h1 h2 h3]
    exact fallback_nil b e g nt hb he hbe hD hnt
  · rw [parallelReduce_parallel_eq nt sched ctx b e g ident z fr sf h1 h2 h3]
    exact dispatched_all b e g nt hb he hbe hD hnt
  · rw [parallelReduce_parallel_eq nt sched ctx b e g ident z fr sf h1 h2 h3]
    exact fallback_nil b e g nt hb he hbe hD hnt
  · intro hov k hk
    rw [chunkStart_eq_claimed b e g nt k hb (by omega) hov,
        chunkStop_eq_claimed b e g nt k hb (by omega) hov]
    exact claimed_nonempty b e g nt k hbe hnt hk

/-- C10 counterexample: at `begin = 2^63 - 4`, `end = 2^63 - 1`, `grain_size = 1` with
2 threads, task 1 is dispatched (its `local_start` is below `end`) but the unsigned
wrap-around in `(int64_t)(chunk_size + local_start)` makes its computed chunk
`[2^63 - 2, -2^63)` empty, so a dispatched chunk is not non-empty as the claim states. -/
theorem C10_counterexample :
    (parallelFor 2 [0, 1] defaultRegionCtx (2 ^ 63 - 4) (2 ^ 63 - 1) 1
        (fun _ _ => (Except.ok PUnit.unit : Except Unit PUnit))).dispatched = [1] ∧
    chunkStopC (2 ^ 63 - 4) (2 ^ 63 - 1) 1 2 1 <
      chunkStartC (2 ^ 63 - 4) (2 ^ 63 - 1) 1 2 1 := by
  decide

/-- Witness for C10 at the spec scenario `parallel_for(0, 100, 10)` on 4 threads. -/
theorem C10_dispatch_guard_witness :
    (-(2 ^ 63) ≤ (0 : Int)) ∧ ((100 : Int) ≤ 2 ^ 63 - 1) ∧ ((0 : Int) < 100) ∧
    ((100 : Int) - 0 ≤ 2 ^ 63 - 1) ∧ ((0 : Int) ≤ 10) ∧ ((10 : Int) ≤ 100 - 0) ∧
    (0 < 4) ∧ (defaultRegionCtx.inParallelRegion = false) ∧
    ((∀ k, 1 ≤ k → k < numTasksOf 0 100 10 4 →
        localStartOf 0 (chunkSizeOf 0 100 10 4) k < 100) ∧
      (parallelFor 4 [0, 1, 2, 3] defaultRegionCtx 0 100 10
          (fun _ _ => (Except.ok PUnit.unit : Except String PUnit))).dispatched =
        (List.range (numTasksOf 0 100 10 4)).drop 1 ∧
      (parallelFor 4 [0, 1, 2, 3] defaultRegionCtx 0 100 10
          (fun _ _ => (Except.ok PUnit.unit : Except String PUnit))).fallback = [] ∧
      (parallelReduce 4 [0, 1, 2, 3] defaultRegionCtx 0 100 10 (0 : Int) 0
          (fun _ _ a => (Except.ok a : Except String Int)) (fun x y => x + y)).dispatched =
        (List.range (numTasksOf 0 100 10 4)).drop 1 ∧
      (parallelReduce 4 [0, 1, 2, 3] defaultRegionCtx 0 100 10 (0 : Int) 0
          (fun _ _ a => (Except.ok a : Except String Int)) (fun x y => x + y)).fallback = [] ∧
      (((0 : Int) + (numTasksOf 0 100 10 4 : Int) * (chunkSizeOf 0 100 10 4 : Int) ≤
          2 ^ 63 - 1) →
        ∀ k, k < numTasksOf 0 100 10 4 →
          chunkStartC 0 100 10 4 k < chunkStopC 0 100 10 4 k)) :=
  ⟨by decide, by decide, by decide, by decide, by decide, by decide, by decide, by decide,
   C10_dispatch_guard 4 [0, 1, 2, 3] defaultRegionCtx 0 100 10
     (fun _ _ => (Except.ok PUnit.unit : Except String PUnit))
     (fun _ _ a => (Except.ok a : Except String Int)) 0 0 (fun x y => x + y)
     (by decide) (by decide) (by decide) (by decide) (by decide) (by decide)
     (by decide) (by decide)⟩

theorem runs_normal_form (b e g : Int) (nt : Nat)
    (hb : -(2 ^ 63) ≤ b) (he : e ≤ 2 ^ 63 - 1) (hbe : b < e)
    (hD : e - b ≤ 2 ^ 63 - 1) (hnt : 0 < nt)
    (hov : b + (numTasksOf b e g nt : Int) * (chunkSizeOf b e g nt : Int) ≤ 2 ^ 63 - 1) :
    ((List.range (numTasksOf b e g nt)).filter
        (fun k => k == 0 || decide (chunkStartC b e g nt k < e))).map (fun k =>
      { taskId := some k, start := chunkStartC b e g nt k, stop := chunkStopC b e g nt k,
        ctxSeen := { inParallelRegion := true, threadNum := some k },
        ctxAfter := defaultRegionCtx : BodyRun }) =
      (List.range (numTasksOf b e g nt)).map (fun k =>
        { taskId := some k,
          start := claimedChunkStart b (chunkSizeOf b e g nt) k,
          stop := claimedChunkStop b e (chunkSizeOf b e g nt) k,
          ctxSeen := { inParallelRegion := true, threadNum := some k },
          ctxAfter := defaultRegionCtx }) := by
  rw [executed_all b e g nt hb he hbe hD hnt]
  apply List.map_congr_left
  intro k hk
  have hkn : k < numTasksOf b e g nt := List.mem_range.mp hk
  rw [chunkStart_eq_claimed b e g nt k hb (by omega) hov,
    chunkStop_eq_claimed b e g nt k hb (by omega) hov]

/-- C1 (amended): for every `parallel_for` / `parallel_reduce` call with
`begin < end`, `grain_size >= 0`, `(end-begin) >= grain_size`, made outside a parallel
region, and provided additionally that `begin + num_tasks*chunk_size` does not exceed
`2^63 - 1` (no `int64_t` overflow while computing chunk ends):
`chunk_size = max(grain_size, ceil((end-begin)/thread_count))` and
`num_tasks = ceil((end-begin)/chunk_size)` (stated through their defining
inequalities), both primitives execute exactly the chunks `0..num_tasks-1` in task-id
order, chunk `k` covers exactly `[begin + k*chunk_size, min(end,
begin+(k+1)*chunk_size))`, and the chunks are contiguous, non-empty, non-overlapping,
ordered by `k`, with union exactly `[begin, end)`. -/
theorem C1_chunk_partition {ε α : Type} (nt : Nat) (sched : List Nat) (ctx : RegionCtx)
    (b e g : Int) (fb : Int → Int → Except ε PUnit)
    (fr : Int → Int → α → Except ε α) (ident z : α) (sf : α → α → α)
    (hb : -(2 ^ 63) ≤ b) (he : e ≤ 2 ^ 63 - 1) (hbe : b < e)
    (hD : e - b ≤ 2 ^ 63 - 1) (hg : 0 ≤ g) (hge : g ≤ e - b) (hnt : 0 < nt)
    (hctx : ctx.inParallelRegion = false)
    (hov : b + (numTasksOf b e g nt : Int) * (chunkSizeOf b e g nt : Int) ≤ 2 ^ 63 - 1) :
    (chunkSizeOf b e g nt = max g.toNat (divup (e - b) (nt : Int)).toNat ∧
     g.toNat ≤ chunkSizeOf b e g nt ∧
     (e - b).toNat ≤ chunkSizeOf b e g nt * nt) ∧
    (1 ≤ numTasksOf b e g nt ∧
     (e - b).toNat ≤ numTasksOf b e g nt * chunkSizeOf b e g nt ∧
     (numTasksOf b e g nt - 1) * chunkSizeOf b e g nt < (e - b).toNat) ∧
    ((parallelFor nt sched ctx b e g fb).runs =
      (List.range (numTasksOf b e g nt)).map (fun k =>
        { taskId := some k,
          start := claimedChunkStart b (chunkSizeOf b e g nt) k,
          stop := claimedChunkStop b e (chunkSizeOf b e g nt) k,
          ctxSeen := { inParallelRegion := true, threadNum := some k },
          ctxAfter := defaultRegionCtx }) ∧
     (parallelReduce nt sched ctx b e g ident z fr sf).runs =
      (List.range (numTasksOf b e g nt)).map (fun k =>
        { taskId := some k,
          start := claimedChunkStart b (chunkSizeOf b e g nt) k,
          stop := claimedChunkStop b e (chunkSizeOf b e g nt) k,
          ctxSeen := { inParallelRegion := true, threadNum := some k },
          ctxAfter := defaultRegionCtx })) ∧
    (claimedChunkStart b (chunkSizeOf b e g nt) 0 = b ∧
     (∀ k, k + 1 < numTasksOf b e g nt →
       claimedChunkStop b e (chunkSizeOf b e g nt) k =
         claimedChunkStart b (chunkSizeOf b e g nt) (k + 1)) ∧
     claimedChunkStop b e (chunkSizeOf b e g nt) (numTasksOf b e g nt - 1) = e ∧
     (∀ k, k < numTasksOf b e g nt →
       claimedChunkStart b (chunkSizeOf b e g nt) k <
         claimedChunkStop b e (chunkSizeOf b e g nt) k)) ∧
    ((∀ i : Int, (b ≤ i ∧ i < e) ↔ ∃ k, k < numTasksOf b e g nt ∧
        claimedChunkStart b (chunkSizeOf b e g nt) k ≤ i ∧
        i < claimedChunkStop b e (chunkSizeOf b e g nt) k) ∧
     (∀ k₁ k₂ : Nat, ∀ i : Int,
        claimedChunkStart b (chunkSizeOf b e g nt) k₁ ≤ i →
        i < claimedChunkStop b e (chunkSizeOf b e g nt) k₁ →
        claimedChunkStart b (chunkSizeOf b e g nt) k₂ ≤ i →
        i < claimedChunkStop b e (chunkSizeOf b e g nt) k₂ → k₁ = k₂)) := by
  have h1 : ¬ e ≤ b := by omega
  have h2 : ¬ g < 0 := by omega
  have h3 : g ≤ e - b ∧ ctx.inParallelRegion = false := ⟨hge, hctx⟩
  refine ⟨⟨rfl, grain_le_chunkSize b e g nt (le_of_lt hbe) hnt,
      chunkSize_mul_nt_ge b e g nt hbe hnt⟩,
    ⟨numTasks_pos b e g nt hbe hnt, numTasks_mul_ge b e g nt hbe hnt,
      numTasks_pred_mul_lt b e g nt hbe hnt⟩,
    ⟨?_, ?_⟩, ⟨?_, ?_, ?_, ?_⟩, ⟨?_, ?_⟩⟩
  · rw [parallelFor_parallel_eq nt sched ctx b e g fb h1 h2 h3]
    exact runs_normal_form b e g nt hb he hbe hD hnt hov
  · rw [parallelReduce_parallel_eq nt sched ctx b e g ident z fr sf h1 h2 h3]
    exact runs_normal_form b e g nt hb he hbe hD hnt hov
  · unfold claimedChunkStart
    push_cast
    ring
  · intro k hk
    exact claimed_contiguous b e g nt k hbe hnt hk
  · exact claimed_last_stop b e g nt hbe hnt
  · intro k hk
    exact claimed_nonempty b e g nt k hbe hnt hk
  · intro i
    constructor
    · intro hi
      exact claimed_cover_exists b e g nt hbe hnt i hi.1 hi.2
    · intro hi
      obtain ⟨k, hk, hs, ht⟩ := hi
      exact claimed_subset_range b e g nt k i hs ht
  · intro k₁ k₂ i hs₁ ht₁ hs₂ ht₂
    exact claimed_cover_unique b e g nt hbe hnt k₁ k₂ i hs₁ ht₁ hs₂ ht₂

/-- C1 counterexample: at `begin = 2^63 - 4`, `end = 2^63 - 1`, `grain_size = 1`,
thread count 2 (so `chunk_size = 2`, `num_tasks = 2`), the engine invokes chunk 1 as
`body(2^63 - 2, -2^63)` because `(int64_t)(chunk_size + local_start)` wraps around,
whereas the claim says chunk 1 covers exactly `[2^63 - 2, min(end, 2^63)) =
[2^63 - 2, 2^63 - 1)`; the union of the produced chunks therefore misses index
`2^63 - 2` and the claimed partition property fails. -/
theorem C1_counterexample :
    (parallelFor 2 [0, 1] defaultRegionCtx (2 ^ 63 - 4) (2 ^ 63 - 1) 1
        (fun _ _ => (Except.ok PUnit.unit : Except Unit PUnit))).runs.map
        (fun r => (r.taskId, r.start, r.stop)) =
      [(some 0, 2 ^ 63 - 4, 2 ^ 63 - 2), (some 1, 2 ^ 63 - 2, -(2 ^ 63))] ∧
    claimedChunkStop (2 ^ 63 - 4) (2 ^ 63 - 1)
        (chunkSizeOf (2 ^ 63 - 4) (2 ^ 63 - 1) 1 2) 1 = 2 ^ 63 - 1 ∧
    chunkStopC (2 ^ 63 - 4) (2 ^ 63 - 1) 1 2 1 ≠
      claimedChunkStop (2 ^ 63 - 4) (2 ^ 63 - 1)
        (chunkSizeOf (2 ^ 63 - 4) (2 ^ 63 - 1) 1 2) 1 := by
  decide

/-- Witness for C1 at `begin = 0`, `end = 4`, `grain_size = 1`, 2 threads
(`chunk_size = 2`, `num_tasks = 2`). -/
theorem C1_chunk_partition_witness :
    (-(2 ^ 63) ≤ (0 : Int)) ∧ ((4 : Int) ≤ 2 ^ 63 - 1) ∧ ((0 : Int) < 4) ∧
    ((4 : Int) - 0 ≤ 2 ^ 63 - 1) ∧ ((0 : Int) ≤ 1) ∧ ((1 : Int) ≤ 4 - 0) ∧ (0 < 2) ∧
    (defaultRegionCtx.inParallelRegion = false) ∧
    ((0 : Int) + (numTasksOf 0 4 1 2 : Int) * (chunkSizeOf 0 4 1 2 : Int) ≤ 2 ^ 63 - 1) ∧
    ((chunkSizeOf 0 4 1 2 = max (Int.toNat 1) (divup (4 - 0) (2 : Int)).toNat ∧
      Int.toNat 1 ≤ chunkSizeOf 0 4 1 2 ∧
      ((4 : Int) - 0).toNat ≤ chunkSizeOf 0 4 1 2 * 2) ∧
     (1 ≤ numTasksOf 0 4 1 2 ∧
      ((4 : Int) - 0).toNat ≤ numTasksOf 0 4 1 2 * chunkSizeOf 0 4 1 2 ∧
      (numTasksOf 0 4 1 2 - 1) * chunkSizeOf 0 4 1 2 < ((4 : Int) - 0).toNat) ∧
     ((parallelFor 2 [1, 0] defaultRegionCtx 0 4 1
         (fun _ _ => (Except.ok PUnit.unit : Except String PUnit))).runs =
       (List.range (numTasksOf 0 4 1 2)).map (fun k =>
         { taskId := some k,
           start := claimedChunkStart 0 (chunkSizeOf 0 4 1 2) k,
           stop := claimedChunkStop 0 4 (chunkSizeOf 0 4 1 2) k,
           ctxSeen := { inParallelRegion := true, threadNum := some k },
           ctxAfter := defaultRegionCtx }) ∧
      (parallelReduce 2 [1, 0] defaultRegionCtx 0 4 1 (0 : Int) 0
         (fun _ _ a => (Except.ok a : Except String Int)) (fun x y => x + y)).runs =
       (List.range (numTasksOf 0 4 1 2)).map (fun k =>
         { taskId := some k,
           start := claimedChunkStart 0 (chunkSizeOf 0 4 1 2) k,
           stop := claimedChunkStop 0 4 (chunkSizeOf 0 4 1 2) k,
           ctxSeen := { inParallelRegion := true, threadNum := some k },
           ctxAfter := defaultRegionCtx })) ∧
     (claimedChunkStart 0 (chunkSizeOf 0 4 1 2) 0 = 0 ∧
      (∀ k, k + 1 < numTasksOf 0 4 1 2 →
        claimedChunkStop 0 4 (chunkSizeOf 0 4 1 2) k =
          claimedChunkStart 0 (chunkSizeOf 0 4 1 2) (k + 1)) ∧
      claimedChunkStop 0 4 (chunkSizeOf 0 4 1 2) (numTasksOf 0 4 1 2 - 1) = 4 ∧
      (∀ k, k < numTasksOf 0 4 1 2 →
        claimedChunkStart 0 (chunkSizeOf 0 4 1 2) k <
          claimedChunkStop 0 4 (chunkSizeOf 0 4 1 2) k)) ∧
     ((∀ i : Int, ((0 : Int) ≤ i ∧ i < 4) ↔ ∃ k, k < numTasksOf 0 4 1 2 ∧
         claimedChunkStart 0 (chunkSizeOf 0 4 1 2) k ≤ i ∧
         i < claimedChunkStop 0 4 (chunkSizeOf 0 4 1 2) k) ∧
      (∀ k₁ k₂ : Nat, ∀ i : Int,
         claimedChunkStart 0 (chunkSizeOf 0 4 1 2) k₁ ≤ i →
         i < claimedChunkStop 0 4 (chunkSizeOf 0 4 1 2) k₁ →
         claimedChunkStart 0 (chunkSizeOf 0 4 1 2) k₂ ≤ i →
         i < claimedChunkStop 0 4 (chunkSizeOf 0 4 1 2) k₂ → k₁ = k₂))) :=
  ⟨by decide, by decide, by decide, by decide, by decide, by decide, by decide, by decide,
   by decide,
   C1_chunk_partition 2 [1, 0] defaultRegionCtx 0 4 1
     (fun _ _ => (Except.ok PUnit.unit : Except String PUnit))
     (fun _ _ a => (Except.ok a : Except String Int)) 0 0 (fun x y => x + y)
     (by decide) (by decide) (by decide) (by decide) (by decide) (by decide)
     (by decide) (by decide) (by decide)⟩

/-- C2 (amended): for every `begin < end`, `grain_size >= 1`, every thread count,
identity `ident`, chunk function `f` and combiner `sf` such that `sf` is associative
and commutative with identity `ident` and `f(s, t, ident)` equals the sequential fold
of `sf` over the per-index values of `[s, t)` starting from `ident`, and provided
additionally that `begin + num_tasks*chunk_size` does not overflow `int64_t`:
`parallel_reduce` returns exactly the sequential fold over `[begin, end)`. -/
theorem C2_reduce_fold {α ε : Type} (nt : Nat) (sched : List Nat) (ctx : RegionCtx)
    (b e g : Int) (ident z : α) (f : Int → Int → α → Except ε α) (sf : α → α → α)
    (elem : Int → α)
    (hb : -(2 ^ 63) ≤ b) (he : e ≤ 2 ^ 63 - 1) (hbe : b < e)
    (hD : e - b ≤ 2 ^ 63 - 1) (hg1 : 1 ≤ g) (hnt : 0 < nt)
    (hov : b + (numTasksOf b e g nt : Int) * (chunkSizeOf b e g nt : Int) ≤ 2 ^ 63 - 1)
    (hassoc : ∀ x y w, sf (sf x y) w = sf x (sf y w))
    (_hcomm : ∀ x y, sf x y = sf y x)
    (_hid_l : ∀ x, sf ident x = x)
    (hid_r : ∀ x, sf x ident = x)
    (hf : ∀ s t : Int, f s t ident = Except.ok (seqFoldOver sf elem ident s t)) :
    (parallelReduce nt sched ctx b e g ident z f sf).outcome =
      ReduceOutcome.ok (seqFoldOver sf elem ident b e) := by
  have h1 : ¬ e ≤ b := by omega
  have h2 : ¬ g < 0 := by omega
  by_cases hpar : g ≤ e - b ∧ ctx.inParallelRegion = false
  · rw [parallelReduce_parallel_eq nt sched ctx b e g ident z f sf h1 h2 hpar]
    have hnone : firstErr sched (fun k => k == 0 || decide (chunkStartC b e g nt k < e))
        (fun k => f (chunkStartC b e g nt k) (chunkStopC b e g nt k) ident) = none :=
      firstErr_none _ _ _ (fun k _ => ⟨_, hf _ _⟩)
    simp only [hnone]
    congr 1
    have hcongr : (List.range (numTasksOf b e g nt)).map (fun k =>
        if (k == 0 || decide (chunkStartC b e g nt k < e)) then
          match f (chunkStartC b e g nt k) (chunkStopC b e g nt k) ident with
          | Except.ok v => v
          | Except.error _ => z
        else z) =
      (List.range (numTasksOf b e g nt)).map (fun k =>
        seqFoldOver sf elem ident (claimedChunkStart b (chunkSizeOf b e g nt) k)
          (claimedChunkStop b e (chunkSizeOf b e g nt) k)) := by
      apply List.map_congr_left
      intro k hk
      have hkn := List.mem_range.mp hk
      rw [if_pos (isExec_all b e g nt hb he hbe hD hnt k hkn)]
      rw [chunkStart_eq_claimed b e g nt k hb (by omega) hov,
        chunkStop_eq_claimed b e g nt k hb (by omega) hov, hf]
    rw [hcongr]
    exact fold_chunks_eq b e g nt sf elem ident hassoc hid_r hbe hnt
  · rw [parallelReduce_seq_eq nt sched ctx b e g ident z f sf h1 h2 hpar]
    rw [hf b e]

/-- C2 counterexample: with the element-counting chunk function (which does equal the
sequential fold of `+` over per-index value 1 for every argument range), at
`begin = 2^63 - 4`, `end = 2^63 - 1`, `grain_size = 1`, 2 threads, `parallel_reduce`
returns 2 while the sequential fold over `[begin, end)` is 3: the wrapped chunk
`[2^63 - 2, -2^63)` contributes nothing. -/
theorem C2_counterexample :
    (parallelReduce 2 [0, 1] defaultRegionCtx (2 ^ 63 - 4) (2 ^ 63 - 1) 1 (0 : Int) 0
        (fun s t a => (Except.ok ((rangeList s t).foldl (fun acc _ => acc + 1) a) :
          Except Unit Int))
        (fun x y => x + y)).outcome = ReduceOutcome.ok 2 ∧
    seqFoldOver (fun x y => x + y) (fun _ => (1 : Int)) 0 (2 ^ 63 - 4) (2 ^ 63 - 1) = 3 ∧
    (ReduceOutcome.ok 2 : ReduceOutcome Int Unit) ≠ ReduceOutcome.ok 3 := by
  decide

theorem seqFold_gauss (N : Nat) :
    2 * seqFoldOver (fun x y => x + y) (fun i => i) (0 : Int) 0 (N : Int) =
      (N : Int) * ((N : Int) - 1) := by
  induction N with
  | zero =>
    rw [seqFoldOver_empty _ _ _ _ _ (by omega)]
    simp
  | succ n ih =>
    have hsplit : rangeList 0 ((n + 1 : Nat) : Int) =
        rangeList 0 (n : Int) ++ [(0 : Int) + (n : Int)] := by
      unfold rangeList
      have h1 : (((n + 1 : Nat) : Int) - 0).toNat = n + 1 := by omega
      have h2 : (((n : Nat) : Int) - 0).toNat = n := by omega
      rw [h1, h2, List.range_succ, List.map_append]
      rfl
    unfold seqFoldOver at ih ⊢
    rw [hsplit, List.map_append, List.foldl_append]
    simp only [List.map_cons, List.map_nil, List.foldl_cons, List.foldl_nil]
    push_cast
    ring_nf
    ring_nf at ih
    linarith

/-- Witness for C2 at the spec scenario `parallel_reduce(0, 1000000, 1000, 0,
sum_chunk, add)` on 4 threads, which returns `499999500000`. -/
theorem C2_reduce_fold_witness :
    (-(2 ^ 63) ≤ (0 : Int)) ∧ ((1000000 : Int) ≤ 2 ^ 63 - 1) ∧ ((0 : Int) < 1000000) ∧
    ((1000000 : Int) - 0 ≤ 2 ^ 63 - 1) ∧ ((1 : Int) ≤ 1000) ∧ (0 < 4) ∧
    ((0 : Int) + (numTasksOf 0 1000000 1000 4 : Int) *
      (chunkSizeOf 0 1000000 1000 4 : Int) ≤ 2 ^ 63 - 1) ∧
    (∀ x y w : Int, (x + y) + w = x + (y + w)) ∧ (∀ x y : Int, x + y = y + x) ∧
    (∀ x : Int, 0 + x = x) ∧ (∀ x : Int, x + 0 = x) ∧
    (parallelReduce 4 [0, 1, 2, 3] defaultRegionCtx 0 1000000 1000 (0 : Int) 0
        (fun s t a => (Except.ok (seqFoldOver (fun x y => x + y) (fun i => i) a s t) :
          Except String Int))
        (fun x y => x + y)).outcome = ReduceOutcome.ok 499999500000 := by
  refine ⟨by decide, by decide, by decide, by decide, by decide, by decide, by decide,
    fun x y w => by ring, fun x y => by ring, fun x => by ring, fun x => by ring, ?_⟩
  have h := C2_reduce_fold 4 [0, 1, 2, 3] defaultRegionCtx 0 1000000 1000 (0 : Int) 0
    (fun s t a => (Except.ok (seqFoldOver (fun x y => x + y) (fun i => i) a s t) :
      Except String Int))
    (fun x y => x + y) (fun i => i)
    (by decide) (by decide) (by decide) (by decide) (by decide) (by decide) (by decide)
    (fun x y w => by ring) (fun x y => by ring) (fun x => by ring) (fun x => by ring)
    (fun s t => rfl)
  rw [h]
  have hg := seqFold_gauss 1000000
  norm_num at hg
  have hval : seqFoldOver (fun x y => x + y) (fun i => i) (0 : Int) 0 1000000 =
      499999500000 := by omega
  rw [hval]

/-- C3: for every parallel-path call in which at least one chunk body raises — with
the chunks completing in the order `l₁ ++ k :: l₂` where no chunk of `l₁` raised and
chunk `k` raised `ex` — exactly one exception, the first one captured by the
first-writer-wins `err_flag.test_and_set` claim (namely `ex`), is rethrown on the
calling thread; every chunk `0..num_tasks-1` is executed exactly once (no chunk is
re-executed, none is abandoned), every dispatched future `1..num_tasks-1` is waited on
before the rethrow, and the exceptions of all later-failing chunks are discarded. -/
theorem C3_first_error {ε α : Type} (nt : Nat) (ctx : RegionCtx)
    (b e g : Int) (fb : Int → Int → Except ε PUnit)
    (fr : Int → Int → α → Except ε α) (ident z : α) (sf : α → α → α)
    (l₁ l₂ : List Nat) (k : Nat) (ex : ε)
    (hb : -(2 ^ 63) ≤ b) (he : e ≤ 2 ^ 63 - 1) (hbe : b < e)
    (hD : e - b ≤ 2 ^ 63 - 1) (hg : 0 ≤ g) (hge : g ≤ e - b) (hnt : 0 < nt)
    (hctx : ctx.inParallelRegion = false)
    (hk : k < numTasksOf b e g nt)
    (hl₁F : ∀ j ∈ l₁, ∃ v,
      fb (chunkStartC b e g nt j) (chunkStopC b e g nt j) = Except.ok v)
    (hl₁R : ∀ j ∈ l₁, ∃ v,
      fr (chunkStartC b e g nt j) (chunkStopC b e g nt j) ident = Except.ok v)
    (hkF : fb (chunkStartC b e g nt k) (chunkStopC b e g nt k) = Except.error ex)
    (hkR : fr (chunkStartC b e g nt k) (chunkStopC b e g nt k) ident = Except.error ex) :
    (parallelFor nt (l₁ ++ k :: l₂) ctx b e g fb).outcome = ForOutcome.bodyErr ex ∧
    (parallelFor nt (l₁ ++ k :: l₂) ctx b e g fb).runs.map (fun r => r.taskId) =
      (List.range (numTasksOf b e g nt)).map some ∧
    (parallelFor nt (l₁ ++ k :: l₂) ctx b e g fb).waited =
      (List.range (numTasksOf b e g nt)).drop 1 ∧
    (parallelReduce nt (l₁ ++ k :: l₂) ctx b e g ident z fr sf).outcome =
      ReduceOutcome.bodyErr ex ∧
    (parallelReduce nt (l₁ ++ k :: l₂) ctx b e g ident z fr sf).runs.map
        (fun r => r.taskId) =
      (List.range (numTasksOf b e g nt)).map some ∧
    (parallelReduce nt (l₁ ++ k :: l₂) ctx b e g ident z fr sf).waited =
      (List.range (numTasksOf b e g nt)).drop 1 := by
  have h1 : ¬ e ≤ b := by omega
  have h2 : ¬ g < 0 := by omega
  have h3 : g ≤ e - b ∧ ctx.inParallelRegion = false := ⟨hge, hctx⟩
  have hexec := isExec_all b e g nt hb he hbe hD hnt
  have hFerr : firstErr (l₁ ++ k :: l₂)
      (fun k => k == 0 || decide (chunkStartC b e g nt k < e))
      (fun j => fb (chunkStartC b e g nt j) (chunkStopC b e g nt j)) = some ex :=
    firstErr_first l₁ l₂ k ex _ _ (fun j hj _ => hl₁F j hj) (hexec k hk) hkF
  have hRerr : firstErr (l₁ ++ k :: l₂)
      (fun k => k == 0 || decide (chunkStartC b e g nt k < e))
      (fun j => fr (chunkStartC b e g nt j) (chunkStopC b e g nt j) ident) = some ex :=
    firstErr_first l₁ l₂ k ex _ _ (fun j hj _ => hl₁R j hj) (hexec k hk) hkR
  refine ⟨?_, ?_, ?_, ?_, ?_, ?_⟩
  · rw [parallelFor_parallel_eq nt (l₁ ++ k :: l₂) ctx b e g fb h1 h2 h3]
    simp only [hFerr]
  · rw [parallelFor_parallel_eq nt (l₁ ++ k :: l₂) ctx b e g fb h1 h2 h3]
    simp only [executed_all b e g nt hb he hbe hD hnt, List.map_map]
    rfl
  · rw [parallelFor_parallel_eq nt (l₁ ++ k :: l₂) ctx b e g fb h1 h2 h3]
  · rw [parallelReduce_parallel_eq nt (l₁ ++ k :: l₂) ctx b e g ident z fr sf h1 h2 h3]
    simp only [hRerr]
  · rw [parallelReduce_parallel_eq nt (l₁ ++ k :: l₂) ctx b e g ident z fr sf h1 h2 h3]
    simp only [executed_all b e g nt hb he hbe hD hnt, List.map_map]
    rfl
  · rw [parallelReduce_parallel_eq nt (l₁ ++ k :: l₂) ctx b e g ident z fr sf h1 h2 h3]

/-- Witness for C3: range `[0, 4)`, grain 1, 2 threads (chunks `[0,2)` and `[2,4)`);
chunk 1 raises and completes first in the schedule `[1, 0]`. -/
theorem C3_first_error_witness :
    ((0 : Int) < 4) ∧ (1 < numTasksOf 0 4 1 2) ∧
    ((fun s _ => if s = 2 then Except.error "E1" else Except.ok PUnit.unit :
        Int → Int → Except String PUnit)
      (chunkStartC 0 4 1 2 1) (chunkStopC 0 4 1 2 1) = Except.error "E1") ∧
    ((fun s _ a => if s = 2 then Except.error "E1" else Except.ok a :
        Int → Int → Int → Except String Int)
      (chunkStartC 0 4 1 2 1) (chunkStopC 0 4 1 2 1) 0 = Except.error "E1") ∧
    ((parallelFor 2 ([] ++ 1 :: [0]) defaultRegionCtx 0 4 1
        (fun s _ => if s = 2 then Except.error "E1" else Except.ok PUnit.unit)).outcome =
      ForOutcome.bodyErr "E1" ∧
     (parallelFor 2 ([] ++ 1 :: [0]) defaultRegionCtx 0 4 1
        (fun s _ => if s = 2 then Except.error "E1" else Except.ok PUnit.unit)).runs.map
        (fun r => r.taskId) = (List.range (numTasksOf 0 4 1 2)).map some ∧
     (parallelFor 2 ([] ++ 1 :: [0]) defaultRegionCtx 0 4 1
        (fun s _ => if s = 2 then Except.error "E1" else Except.ok PUnit.unit)).waited =
      (List.range (numTasksOf 0 4 1 2)).drop 1 ∧
     (parallelReduce 2 ([] ++ 1 :: [0]) defaultRegionCtx 0 4 1 (0 : Int) 0
        (fun s _ a => if s = 2 then Except.error "E1" else Except.ok a)
        (fun x y => x + y)).outcome = ReduceOutcome.bodyErr "E1" ∧
     (parallelReduce 2 ([] ++ 1 :: [0]) defaultRegionCtx 0 4 1 (0 : Int) 0
        (fun s _ a => if s = 2 then Except.error "E1" else Except.ok a)
        (fun x y => x + y)).runs.map (fun r => r.taskId) =
      (List.range (numTasksOf 0 4 1 2)).map some ∧
     (parallelReduce 2 ([] ++ 1 :: [0]) defaultRegionCtx 0 4 1 (0 : Int) 0
        (fun s _ a => if s = 2 then Except.error "E1" else Except.ok a)
        (fun x y => x + y)).waited = (List.range (numTasksOf 0 4 1 2)).drop 1) :=
  ⟨by decide, by decide, rfl, rfl,
   C3_first_error 2 defaultRegionCtx 0 4 1
     (fun s _ => if s = 2 then Except.error "E1" else Except.ok PUnit.unit)
     (fun s _ a => if s = 2 then Except.error "E1" else Except.ok a) 0 0
     (fun x y => x + y) [] [0] 1 "E1"
     (by decide) (by decide) (by decide) (by decide) (by decide) (by decide)
     (by decide) (by decide) (by decide)
     (by simp) (by simp) rfl rfl⟩

/-- C9: around every chunk execution, on the success and the failure path alike, the
engine gives the body the region state `in_parallel_region = true`, `thread_num =
task_id`, and afterwards restores the executing thread to the state an idle worker or
non-nested caller has (`in_parallel_region = false`, `thread_num` unset); consequently
after any `parallel_for` or `parallel_reduce` call returns — normally or by exception —
the calling thread region state equals its value from before the call (for callers
whose `thread_num` is unset whenever they are outside a parallel region, the only
states the engine itself ever leaves behind). -/
theorem C9_region_restore {ε α : Type} (nt : Nat) (sched : List Nat) (ctx : RegionCtx)
    (b e g : Int) (fb : Int → Int → Except ε PUnit)
    (fr : Int → Int → α → Except ε α) (ident z : α) (sf : α → α → α)
    (hctx : ctx.inParallelRegion = false → ctx.threadNum = none) :
    (∀ r ∈ (parallelFor nt sched ctx b e g fb).runs,
      (∀ id, r.taskId = some id →
        r.ctxSeen = { inParallelRegion := true, threadNum := some id } ∧
        r.ctxAfter = defaultRegionCtx) ∧
      (r.taskId = none → r.ctxSeen = ctx ∧ r.ctxAfter = ctx)) ∧
    (parallelFor nt sched ctx b e g fb).finalCtx = ctx ∧
    (∀ r ∈ (parallelReduce nt sched ctx b e g ident z fr sf).runs,
      (∀ id, r.taskId = some id →
        r.ctxSeen = { inParallelRegion := true, threadNum := some id } ∧
        r.ctxAfter = defaultRegionCtx) ∧
      (r.taskId = none → r.ctxSeen = ctx ∧ r.ctxAfter = ctx)) ∧
    (parallelReduce nt sched ctx b e g ident z fr sf).finalCtx = ctx := by
  by_cases h1 : e ≤ b
  · unfold parallelFor parallelReduce
    rw [if_pos h1, if_pos h1]
    refine ⟨?_, rfl, ?_, rfl⟩ <;> simp
  by_cases h2 : g < 0
  · unfold parallelFor parallelReduce
    rw [if_neg h1, if_neg h1, if_pos h2, if_pos h2]
    refine ⟨?_, rfl, ?_, rfl⟩ <;> simp
  by_cases h3 : g ≤ e - b ∧ ctx.inParallelRegion = false
  · have hctxeq : defaultRegionCtx = ctx := by
      have hnum := hctx h3.2
      cases ctx
      simp_all [defaultRegionCtx]
    rw [parallelFor_parallel_eq nt sched ctx b e g fb h1 h2 h3,
      parallelReduce_parallel_eq nt sched ctx b e g ident z fr sf h1 h2 h3]
    refine ⟨?_, hctxeq, ?_, hctxeq⟩
    · intro r hr
      obtain ⟨j, hj, rfl⟩ := List.mem_map.mp hr
      refine ⟨?_, ?_⟩
      · intro id hid
        simp only [Option.some.injEq] at hid
        subst hid
        exact ⟨rfl, rfl⟩
      · intro hid
        simp at hid
    · intro r hr
      obtain ⟨j, hj, rfl⟩ := List.mem_map.mp hr
      refine ⟨?_, ?_⟩
      · intro id hid
        simp only [Option.some.injEq] at hid
        subst hid
        exact ⟨rfl, rfl⟩
      · intro hid
        simp at hid
  · rw [parallelFor_seq_eq nt sched ctx b e g fb h1 h2 h3,
      parallelReduce_seq_eq nt sched ctx b e g ident z fr sf h1 h2 h3]
    constructor
    · cases hfb : fb b e <;>
        · intro r hr
          simp only [List.mem_singleton] at hr
          subst hr
          exact ⟨fun id hid => by simp at hid, fun _ => ⟨rfl, rfl⟩⟩
    constructor
    · cases hfb : fb b e <;> rfl
    constructor
    · cases hfr : fr b e ident <;>
        · intro r hr
          simp only [List.mem_singleton] at hr
          subst hr
          exact ⟨fun id hid => by simp at hid, fun _ => ⟨rfl, rfl⟩⟩
    · cases hfr : fr b e ident <;> rfl

/-- Witness for C9: range `[0, 4)`, grain 1, 2 threads, with chunk 1 raising, from a
fresh calling thread. -/
theorem C9_region_restore_witness :
    (defaultRegionCtx.inParallelRegion = false → defaultRegionCtx.threadNum = none) ∧
    ((∀ r ∈ (parallelFor 2 [1, 0] defaultRegionCtx 0 4 1
        (fun s _ => if s = 2 then Except.error "E1" else Except.ok PUnit.unit)).runs,
      (∀ id, r.taskId = some id →
        r.ctxSeen = { inParallelRegion := true, threadNum := some id } ∧
        r.ctxAfter = defaultRegionCtx) ∧
      (r.taskId = none → r.ctxSeen = defaultRegionCtx ∧ r.ctxAfter = defaultRegionCtx)) ∧
    (parallelFor 2 [1, 0] defaultRegionCtx 0 4 1
        (fun s _ => if s = 2 then Except.error "E1" else Except.ok PUnit.unit)).finalCtx =
      defaultRegionCtx ∧
    (∀ r ∈ (parallelReduce 2 [1, 0] defaultRegionCtx 0 4 1 (0 : Int) 0
        (fun s _ a => if s = 2 then Except.error "E1" else Except.ok a)
        (fun x y => x + y) (ε := String)).runs,
      (∀ id, r.taskId = some id →
        r.ctxSeen = { inParallelRegion := true, threadNum := some id } ∧
        r.ctxAfter = defaultRegionCtx) ∧
      (r.taskId = none → r.ctxSeen = defaultRegionCtx ∧ r.ctxAfter = defaultRegionCtx)) ∧
    (parallelReduce 2 [1, 0] defaultRegionCtx 0 4 1 (0 : Int) 0
        (fun s _ a => if s = 2 then Except.error "E1" else Except.ok a)
        (fun x y => x + y) (ε := String)).finalCtx = defaultRegionCtx) :=
  ⟨fun _ => rfl,
   C9_region_restore 2 [1, 0] defaultRegionCtx 0 4 1
     (fun s _ => if s = 2 then Except.error "E1" else Except.ok PUnit.unit)
     (fun s _ a => if s = 2 then Except.error "E1" else Except.ok a) 0 0
     (fun x y => x + y) (fun _ => rfl)⟩

/-! ### Inter-op pool claims -/

theorem asInt32_eq_self (x : Int) (h1 : -(2 ^ 31) ≤ x) (h2 : x ≤ 2 ^ 31 - 1) :
    asInt32 x = x := by
  unfold asInt32
  rw [Int.emod_eq_of_lt (by omega) (by omega)]
  omega

theorem createC10_counter (hw : Nat) (d p : Int) (c : Bool) (w : InteropWorld) :
    (createC10ThreadPool hw d p c w).snd.counter = w.counter := rfl

theorem get_pool_counter (hw : Nat) (w : InteropWorld) (houter : w.outerPool = none) :
    (get_pool hw w).snd.counter = -2 := by
  unfold get_pool
  split
  · simp_all
  · dsimp only
    split
    · rename_i s w2 heq
      have hc := createC10_counter hw 0 w.counter false { w with counter := -2 }
      rw [heq] at hc
      exact hc
    · rename_i m w2 heq
      have hc := createC10_counter hw 0 w.counter false { w with counter := -2 }
      rw [heq] at hc
      exact hc

theorem launch_counter (hw : Nat) (w : InteropWorld) (houter : w.outerPool = none) :
    (launch hw w).snd.counter = -2 := by
  unfold launch
  split
  · rename_i w1 heq
    have hc := get_pool_counter hw w houter
    rw [heq] at hc
    exact hc
  · rename_i m w1 heq
    have hc := get_pool_counter hw w houter
    rw [heq] at hc
    exact hc

/-- C7 evaluation at the failing input: the `UserRequested` and `Unset` arms of
`get_num_interop_threads` behave as claimed, and after materializing with a committed
value the true pool size is returned; but when `launch` materializes the pool while
the state is still `Unset(-1)`, the pool is built with hardware-concurrency size while
`AT_ASSERT(pool->size() == pool_size)` compares that size with `-1` converted to
`size_t`, so the assert throws and every subsequent `get_num_interop_threads` throws
too instead of returning the real pool size (hardware concurrency 8 here). -/
theorem C7_interop_get_eval :
    (get_num_interop_threads 8 (set_num_interop_threads 5 initialInteropWorld).snd).fst =
      Except.ok 5 ∧
    get_num_interop_threads 8 initialInteropWorld = (Except.ok 8, initialInteropWorld) ∧
    (get_num_interop_threads 8
        (launch 8 (set_num_interop_threads 5 initialInteropWorld).snd).snd).fst =
      Except.ok 5 ∧
    (launch 8 initialInteropWorld).fst =
      Except.error "AT_ASSERT failed: pool size unchanged" ∧
    (launch 8 initialInteropWorld).snd.innerPool = some 8 ∧
    (get_num_interop_threads 8 (launch 8 initialInteropWorld).snd).fst =
      Except.error "AT_ASSERT failed: pool size unchanged" :=
  ⟨rfl, rfl, rfl, rfl, rfl, rfl⟩

/-- C8 counterexample: after one successful commitment (`set_num_interop_threads 5`),
a subsequent call with value 0 does NOT raise `RuntimeError` — it returns successfully
as a no-op — contradicting the claim that every subsequent call with any value raises. -/
theorem C8_counterexample :
    (set_num_interop_threads 5 initialInteropWorld).fst = Except.ok () ∧
    (set_num_interop_threads 0 (set_num_interop_threads 5 initialInteropWorld).snd).fst =
      Except.ok () ∧
    (set_num_interop_threads 0 (set_num_interop_threads 5 initialInteropWorld).snd).snd =
      (set_num_interop_threads 5 initialInteropWorld).snd :=
  ⟨rfl, rfl, rfl⟩

/-- C8 (amended): restricted to nonzero requested values (fitting in a positive
`int`), `set_num_interop_threads` succeeds exactly once: a successful call atomically
transitions `Unset(-1)` to `UserRequested(n)`; once the state is not `Unset` — a value
was committed, or the pool was materialized (which forces the counter to `-2`) — every
subsequent call with a nonzero value raises `RuntimeError` and changes nothing; calls
with value 0 return successfully without committing anything in every state. -/
theorem C8_set_once (n m hwc : Nat) (w w1 : InteropWorld)
    (hn0 : 0 < n) (hn1 : (n : Int) < 2 ^ 31) (hm0 : 0 < m)
    (hw : w.counter = -1) (hw1 : w1.counter ≠ -1) (houter : w.outerPool = none) :
    set_num_interop_threads n w = (Except.ok (), { w with counter := (n : Int) }) ∧
    ({ w with counter := (n : Int) } : InteropWorld).counter ≠ -1 ∧
    set_num_interop_threads m w1 =
      (Except.error
        "Error: cannot set number of interop threads after parallel work has started",
        w1) ∧
    set_num_interop_threads 0 w1 = (Except.ok (), w1) ∧
    (∀ w2 : InteropWorld, set_num_interop_threads 0 w2 = (Except.ok (), w2)) ∧
    (launch hwc w).snd.counter = -2 := by
  refine ⟨?_, ?_, ?_, ?_, ?_, launch_counter hwc w houter⟩
  · unfold set_num_interop_threads
    rw [if_neg (by omega), if_pos hw, asInt32_eq_self _ (by omega) (by omega)]
  · show (n : Int) ≠ -1
    omega
  · unfold set_num_interop_threads
    rw [if_neg (by omega), if_neg hw1]
  · unfold set_num_interop_threads
    rw [if_pos rfl]
  · intro w2
    unfold set_num_interop_threads
    rw [if_pos rfl]

/-- Witness for C8 with `n = 3`, `m = 5`, starting from the process start state and a
committed state. -/
theorem C8_set_once_witness :
    (0 < 3) ∧ ((3 : Int) < 2 ^ 31) ∧ (0 < 5) ∧
    (initialInteropWorld.counter = -1) ∧
    ((⟨3, none, none⟩ : InteropWorld).counter ≠ -1) ∧
    (initialInteropWorld.outerPool = none) ∧
    (set_num_interop_threads 3 initialInteropWorld =
      (Except.ok (), { initialInteropWorld with counter := ((3 : Nat) : Int) }) ∧
    ({ initialInteropWorld with counter := ((3 : Nat) : Int) } : InteropWorld).counter ≠ -1 ∧
    set_num_interop_threads 5 (⟨3, none, none⟩ : InteropWorld) =
      (Except.error
        "Error: cannot set number of interop threads after parallel work has started",
        (⟨3, none, none⟩ : InteropWorld)) ∧
    set_num_interop_threads 0 (⟨3, none, none⟩ : InteropWorld) =
      (Except.ok (), (⟨3, none, none⟩ : InteropWorld)) ∧
    (∀ w2 : InteropWorld, set_num_interop_threads 0 w2 = (Except.ok (), w2)) ∧
    (launch 8 initialInteropWorld).snd.counter = -2) :=
  ⟨by decide, by decide, by decide, by decide, by decide, by decide,
   C8_set_once 3 5 8 initialInteropWorld ⟨3, none, none⟩
     (by decide) (by decide) (by decide) (by decide) (by decide) (by decide)⟩
